import Mathlib

/-
Verification of the evidence-acquisition and ranking pipeline of the `news`
repository against its natural-language specification.

Shallow embedding conventions used throughout this file:
* Python floats are modelled as exact rationals (`ℚ`); Python's `round(x, n)`
  is modelled as round-half-to-even at `n` decimal digits (`py_round`).
* Python strings are modelled as Lean `String`s, with the handful of string
  operations the code uses (lower-casing, whitespace collapsing, stripping,
  substring tests, slicing) implemented over `String.toList` so that they
  reduce inside the kernel.
* Network and HTML-parsing effects (HTTP responses, BeautifulSoup text/link
  extraction, URL parsing) are abstracted as oracle functions packaged in
  environment records; the control flow of the Python functions is translated
  faithfully against those oracles, so the proved properties hold for every
  possible behaviour of the network and of the parsers.
* The persistent keyed store (source_cache / source_health tables in db.py)
  is modelled as an explicit association list threaded through the code, with
  boolean flags in the environment records injecting its possible failures.
-/

/-! ### Text utilities shared by the embedded modules -/

/-- Python `str.lower()` (per-character lowering; adequate for the ASCII and
CJK data handled by this code base, where CJK characters are fixed points). -/
def lower_str (s : String) : String := ⟨s.toList.map Char.toLower⟩

/-- Worker for `collapse_ws`: replaces each run of whitespace by one space,
without stripping.  The flag records whether we are inside a whitespace run. -/
def collapse_ws_go : List Char → Bool → List Char
  | [], _ => []
  | c :: cs, inRun =>
    if c.isWhitespace then
      if inRun then collapse_ws_go cs true else ' ' :: collapse_ws_go cs true
    else c :: collapse_ws_go cs false

/-- Python `re.sub(r"\s+", " ", s)`: collapse each whitespace run to one space. -/
def collapse_ws (s : List Char) : List Char := collapse_ws_go s false

/-- Python `str.strip()`: drop leading and trailing whitespace. -/
def strip_ws (s : List Char) : List Char :=
  ((s.dropWhile Char.isWhitespace).reverse.dropWhile Char.isWhitespace).reverse

/-- `dd_reports._compact_text`: collapse whitespace, strip, truncate to
`maxLen` characters (Python slicing counts characters). -/
def compact_text (v : String) (maxLen : Nat) : String :=
  ⟨(strip_ws (collapse_ws v.toList)).take maxLen⟩

/-- Python's substring test `needle in hay`. -/
def contains_sub (hay needle : String) : Bool :=
  decide (List.IsInfix needle.toList hay.toList)

/-- Python's `str.startswith`. -/
def starts_with (s pre : String) : Bool :=
  decide (List.IsPrefix pre.toList s.toList)

/-- Lexicographic comparison of character lists by code point, the order
Python uses to compare `str` values. -/
def str_le_b : List Char → List Char → Bool
  | [], _ => true
  | _ :: _, [] => false
  | x :: xs, y :: ys => if x = y then str_le_b xs ys else decide (x < y)

/-! ### Rational utilities -/

/-- `min` on `ℚ` written as a plain conditional so that it evaluates. -/
def qmin (a b : ℚ) : ℚ := if a ≤ b then a else b

/-- `max` on `ℚ` written as a plain conditional so that it evaluates. -/
def qmax (a b : ℚ) : ℚ := if b ≤ a then a else b

/-- Round-half-to-even to an integer, the tie-breaking rule of Python's
built-in `round`. -/
def round_half_even (q : ℚ) : ℤ :=
  let f : ℤ := ⌊q⌋
  let r : ℚ := q - (f : ℚ)
  if r < 1/2 then f
  else if 1/2 < r then f + 1
  else if f % 2 = 0 then f else f + 1

/-- Python `round(q, ndigits)` on the exact rational model. -/
def py_round (q : ℚ) (ndigits : Nat) : ℚ :=
  (round_half_even (q * ((10 : ℚ) ^ ndigits)) : ℚ) / ((10 : ℚ) ^ ndigits)

/-! ### backend/http_client.py — the resilient fetch layer -/

/-- `http_client.HttpResult`. -/
structure HttpResult where
  ok : Bool
  status_code : Nat
  text : String
  url : String
  from_cache : Bool := false
  error : Option String := none
deriving Repr, DecidableEq

/-- One row of the `source_cache` table (`db.upsert_source_cache` /
`db.get_source_cache`): status, body, fetch timestamp (in hours on an
abstract clock), and source key. -/
structure CacheEntry where
  status_code : Nat
  body : String
  fetched_at : ℚ
  source : String
deriving Repr, DecidableEq

/-- The `source_cache` table, keyed by URL. -/
abbrev CacheStore := List (String × CacheEntry)

/-- `db.upsert_source_cache`: `INSERT ... ON CONFLICT (url) DO UPDATE`. -/
def upsert_source_cache (store : CacheStore) (url : String) (e : CacheEntry) : CacheStore :=
  if store.any (fun p => p.1 == url) then
    store.map (fun p => if p.1 == url then (url, e) else p)
  else (url, e) :: store

/-- `db.get_source_cache`: select the row for `url` whose
`fetched_at >= NOW() - max_age_hours`. -/
def get_source_cache (store : CacheStore) (url : String) (maxAgeHours now : ℚ) :
    Option CacheEntry :=
  match store.find? (fun p => p.1 == url) with
  | some p => if now - maxAgeHours ≤ p.2.fetched_at then some p.2 else none
  | none => none

/-- Outcome of one `session.get` attempt, abstracting the network: either an
HTTP response (status and body) or a raised exception (its `str(exc)` text). -/
inductive AttemptOutcome where
  | response (status : Nat) (body : String)
  | exn (text : String)
deriving Repr, DecidableEq

/-- `http_client._retryable_exception`'s hard-failure markers. -/
def hard_fail_markers : List String :=
  ["winerror 10051", "name resolution", "no route to host",
   "temporary failure in name resolution"]

/-- `http_client._retryable`: 429 or any 5xx status. -/
def retryable (status : Nat) : Bool :=
  status == 429 || (decide (500 ≤ status) && decide (status < 600))

/-- `http_client._retryable_exception`: everything except DNS / no-route
failures, recognised by substring markers in the lower-cased text. -/
def retryable_exception (txt : String) : Bool :=
  ! hard_fail_markers.any (fun m => contains_sub (lower_str txt) m)

/-- The deterministic part of `http_client._sleep_backoff`:
`base = min(6.0, 0.5 * 2 ** attempt)`. -/
def sleep_backoff_base (attempt : Nat) : ℚ :=
  qmin 6 ((1/2) * 2 ^ attempt)

/-- Environment of one `fetch_url` call: the network oracle (outcome of each
attempt), the jitter drawn for each backoff, the current time, and flags
injecting exceptions from the persistent keyed store. -/
structure FetchEnv where
  attempt_outcome : Nat → AttemptOutcome
  jitter : Nat → ℚ
  now : ℚ
  upsert_raises : Bool
  health_raises : Bool
  cache_read_raises : Bool

/-- Resolved configuration of a `fetch_url` call: `HTTP_MAX_RETRIES` and the
requested cache TTL in hours. -/
structure FetchConfig where
  max_retries : Nat
  cache_ttl_hours : ℚ
deriving Repr, DecidableEq

/-- Exit of the attempt loop of `fetch_url` (lines 89-117): an early return
with a live 200 response, or falling through to the cache-fallback code.
Both carry the sleeps performed, attempts executed, and the tracked
`last_error` / `last_status`. -/
inductive LoopExit where
  | success (res : HttpResult) (store : CacheStore) (health : List (String × Bool))
      (sleeps : List (Nat × ℚ)) (attempts : Nat)
      (last_error : Option String) (last_status : Nat)
  | exhausted (sleeps : List (Nat × ℚ)) (attempts : Nat)
      (last_error : Option String) (last_status : Nat)
deriving Repr

/-- Prefix one backoff sleep onto the sleep log of a loop exit. -/
def add_sleep (s : Nat × ℚ) : LoopExit → LoopExit
  | .success res store health sleeps a le ls => .success res store health (s :: sleeps) a le ls
  | .exhausted sleeps a le ls => .exhausted (s :: sleeps) a le ls

/-- The `for attempt in range(retries)` loop of `fetch_url`.  `remaining` is
the number of attempts still allowed (including the current one), `attempt`
the current 0-based attempt index; `attempt < retries - 1` in the source
corresponds to `remaining ≥ 2` here. -/
def fetch_loop (env : FetchEnv) (url source : String) (store : CacheStore) :
    Nat → Nat → Option String → Nat → LoopExit
  | 0, attempt, lastError, lastStatus => .exhausted [] attempt lastError lastStatus
  | r + 1, attempt, lastError, lastStatus =>
    match env.attempt_outcome attempt with
    | .response s body =>
      if s = 200 then
        .success ⟨true, 200, body, url, false, none⟩
          (if env.upsert_raises then store
            else upsert_source_cache store url ⟨s, body, env.now, source⟩)
          (if env.upsert_raises || env.health_raises then [] else [(source, true)])
          [] (attempt + 1) lastError s
      else if retryable s && decide (0 < r) then
        add_sleep (attempt, sleep_backoff_base attempt + env.jitter attempt)
          (fetch_loop env url source store r (attempt + 1) lastError s)
      else .exhausted [] (attempt + 1) (some ("HTTP " ++ toString s)) s
    | .exn t =>
      if decide (0 < r) && retryable_exception t then
        add_sleep (attempt, sleep_backoff_base attempt + env.jitter attempt)
          (fetch_loop env url source store r (attempt + 1) (some t) lastStatus)
      else .exhausted [] (attempt + 1) (some t) lastStatus

/-- Result of a `fetch_url` call together with the updated cache store, the
source-health events recorded, and bookkeeping of the run (sleeps performed,
attempts executed, tracked last error / status). -/
structure FetchRun where
  result : HttpResult
  store : CacheStore
  health_events : List (String × Bool)
  sleeps : List (Nat × ℚ)
  attempts_used : Nat
  last_error : Option String
  last_status : Nat
deriving Repr

/-- The post-exhaustion part of `fetch_url` (lines 119-139): record a health
failure (exception swallowed), try the cache fallback (a read exception
yields no entry, as the `except` sets `cached = None`), return a
`from_cache` success carrying the previous error for a non-empty cached
body, and the failure outcome with empty body and the last observed status
otherwise. -/
def fetch_fallback (env : FetchEnv) (cfg : FetchConfig) (url source : String)
    (store : CacheStore) (sleeps : List (Nat × ℚ)) (att : Nat) (le : Option String)
    (ls : Nat) : FetchRun :=
  match (if env.cache_read_raises then none
    else get_source_cache store url cfg.cache_ttl_hours env.now) with
  | some e =>
    if e.body ≠ "" then
      ⟨⟨true, (if e.status_code = 0 then 200 else e.status_code), e.body, url, true, le⟩,
       store, (if env.health_raises then [] else [(source, false)]), sleeps, att, le, ls⟩
    else ⟨⟨false, ls, "", url, false, le⟩, store,
      (if env.health_raises then [] else [(source, false)]), sleeps, att, le, ls⟩
  | none => ⟨⟨false, ls, "", url, false, le⟩, store,
      (if env.health_raises then [] else [(source, false)]), sleeps, att, le, ls⟩

/-- `http_client.fetch_url` (lines 69-139): run the attempt loop with
`retries = max(1, HTTP_MAX_RETRIES)` and `source = source_key or url`; a
live 200 returns directly (cache upsert and health success recorded unless
the store raised, in which case the exception is swallowed); exhaustion
falls through to `fetch_fallback`. -/
def fetch_url (env : FetchEnv) (cfg : FetchConfig) (url : String)
    (source_key : Option String) (store : CacheStore) : FetchRun :=
  match fetch_loop env url (source_key.getD url) store (max 1 cfg.max_retries) 0 none 0 with
  | .success res store2 health sleeps att le ls =>
    ⟨res, store2, health, sleeps, att, le, ls⟩
  | .exhausted sleeps att le ls =>
    fetch_fallback env cfg url (source_key.getD url) store sleeps att le ls

/-- An attempt outcome that makes the loop continue to the next attempt when
one remains: a retryable non-200 status, or a retryable exception. -/
def retry_worthy : AttemptOutcome → Bool
  | .response s _ => !(s == 200) && retryable s
  | .exn t => retryable_exception t

/-- An attempt outcome that is a live HTTP 200. -/
def is_success_outcome : AttemptOutcome → Bool
  | .response s _ => s == 200
  | .exn _ => false

/-- Sleep log of a loop exit. -/
def exit_sleeps : LoopExit → List (Nat × ℚ)
  | .success _ _ _ sleeps _ _ _ => sleeps
  | .exhausted sleeps _ _ _ => sleeps

/-- Number of attempts executed by a loop exit. -/
def exit_attempts : LoopExit → Nat
  | .success _ _ _ _ a _ _ => a
  | .exhausted _ a _ _ => a

/-- Tracked `last_error` of a loop exit. -/
def exit_error : LoopExit → Option String
  | .success _ _ _ _ _ le _ => le
  | .exhausted _ _ le _ => le

/-- Tracked `last_status` of a loop exit. -/
def exit_status : LoopExit → Nat
  | .success _ _ _ _ _ _ ls => ls
  | .exhausted _ _ _ ls => ls

/-- The live HTTP result of a loop exit, when it returned early with a 200. -/
def exit_outcome : LoopExit → Option HttpResult
  | .success res _ _ _ _ _ _ => some res
  | .exhausted _ _ _ _ => none

/-! ### backend/dd_reports.py — the frontier crawler -/

/-- An accepted evidence page row (the dict built at dd_reports.py:1045-1056;
the `key_facts` field, unused by any claim, is omitted). -/
structure Row where
  url : String
  domain : String
  title : String
  excerpt : String
  content_chars : Nat
  source_type : String
  crawl_source : String
  depth : Nat
  is_official_site : Bool
deriving Repr, DecidableEq

/-- A frontier queue entry of `_collect_company_evidence`. -/
structure QItem where
  url : String
  depth : Nat
  source : String
deriving Repr, DecidableEq

/-- Inputs of one `_collect_company_evidence` run: the clamped configuration
values (lines 872-886), the subject identity, and oracles abstracting URL
parsing, HTML parsing, the network and the clock.  `official_url` stands for
`_sanitize_url_for_crawl(primary_url)` and `official_no` for the lower-cased
`no` query parameter extracted from it (lines 888-895). -/
structure CrawlIn where
  max_pages : Nat
  min_target_pages : Nat
  crawl_max_sec : ℚ
  internal_max_depth : Nat
  max_registry_pages : Nat
  max_external_pages : Nat
  enable_public_search : Bool
  always_web_search : Bool
  company_name : String
  official_url : String
  official_no : String
  -- oracles for URL/HTML processing helpers of dd_reports.py
  sanitize : String → String                       -- _sanitize_url_for_crawl
  domain_of : String → String                      -- _domain
  is_registry_domain : String → Bool               -- _is_registry_domain
  is_internal : String → Bool                      -- _same_reg_domain official_url ·
  fetch_html : String → String                     -- _fetch_html ("" on failure)
  html_text : String → String                      -- BeautifulSoup(html).get_text(" ", strip=True)
  fetch_text : String → String                     -- _fetch_text fallback
  page_title : String → String                     -- _extract_page_title
  internal_links : String → String → List String   -- _extract_internal_links
  hint_links : String → String → List String       -- _extract_candidate_company_links
  parent_urls : String → List String               -- _parent_urls
  official_site_candidates : String → String → List String  -- _extract_official_site_candidates
  related_urls : String → String → List String     -- _extract_related_public_urls_from_html
  external_links : String → String → List String   -- _extract_external_signal_links
  search_urls : List String                        -- _search_company_public_urls result
  seed_internal : List String                      -- _build_internal_seed_urls official_url
  seed_sitemap : List String                       -- _discover_sitemap_urls
  extra_urls : List String
  time_at : Nat → ℚ                                -- elapsed seconds at each loop iteration

/-- Mutable state of the crawl loop of `_collect_company_evidence`. -/
structure CrawlState where
  queue : List QItem
  queued_urls : List String
  idx : Nat
  rows : List Row
  visited : List String
  seen_titles : List String
  seen_signatures : List String
  internal_pages : Nat
  external_pages : Nat
  registry_pages : Nat
  did_search : Bool
  steps : List (String × String)
  iter : Nat
deriving Repr

/-- The local `enqueue` closure (dd_reports.py:899-908): sanitize, require an
http(s) scheme, and de-duplicate against all previously enqueued URLs. -/
def enqueue (c : CrawlIn) (st : CrawlState) (url : String) (depth : Nat) (source : String) :
    CrawlState :=
  let clean := c.sanitize url
  if clean = "" then st
  else if !(starts_with clean "http://" || starts_with clean "https://") then st
  else if clean ∈ st.queued_urls then st
  else { st with queued_urls := clean :: st.queued_urls,
                 queue := st.queue ++ [⟨clean, depth, source⟩] }

/-- The local `enqueue_public_search` closure (dd_reports.py:941-961): at most
once per run, and only when a company name is present and public search is
enabled; enqueues the discovered URLs at depth 0 with source
`public_search`.  (The searched terms only shape the oracle-provided result
list and the trace, so they are not modelled separately.) -/
def enqueue_public_search (c : CrawlIn) (st : CrawlState) : CrawlState :=
  if st.did_search || c.company_name = "" || !c.enable_public_search then st
  else
    let st1 := { st with did_search := true }
    let st2 := c.search_urls.foldl (fun s u => enqueue c s u 0 "public_search") st1
    { st2 with steps := ("enqueue_public_search", "") :: st2.steps }

/-- The de-duplication signature (dd_reports.py:1016-1018): lower-cased
stripped title, a `|` separator, and the first 180 characters of the
whitespace-normalised lower-cased excerpt. -/
def dedupe_signature (title excerpt : String) : String :=
  lower_str ⟨strip_ws title.toList⟩ ++ "|" ++ ⟨(collapse_ws (lower_str excerpt).toList).take 180⟩

/-- The title component of the de-duplication signature. -/
def title_key_of (title : String) : String := lower_str ⟨strip_ws title.toList⟩

/-- The excerpt component of the de-duplication signature. -/
def excerpt_key_of (excerpt : String) : String :=
  ⟨(collapse_ws (lower_str excerpt).toList).take 180⟩

/-- Result of one iteration of the crawl loop: either the loop stops
(`break` or the `while` guard failing) or it proceeds with the new state. -/
inductive StepRes where
  | stop (st : CrawlState)
  | next (st : CrawlState)

/-- The text extracted for a visited URL (dd_reports.py:990-996): the
soup text of the fetched HTML, or the `_fetch_text` fallback, whitespace
collapsed and stripped. -/
def visit_text (c : CrawlIn) (url : String) : String :=
  if c.fetch_html url ≠ "" then ⟨strip_ws (collapse_ws (c.html_text (c.fetch_html url)).toList)⟩
  else ⟨strip_ws (collapse_ws (c.fetch_text url).toList)⟩

/-- The page title (dd_reports.py:1003-1004): the extracted title, or the
URL itself when it is empty. -/
def visit_title (c : CrawlIn) (url : String) : String :=
  if (if c.fetch_html url = "" then "" else c.page_title (c.fetch_html url)) = "" then url
  else if c.fetch_html url = "" then "" else c.page_title (c.fetch_html url)

/-- The page excerpt (dd_reports.py:1005): the text compacted to 360
characters. -/
def visit_excerpt (c : CrawlIn) (url : String) : String :=
  compact_text (visit_text c url) 360

/-- The lower-cased `title excerpt` haystack of the not-found and
relevance checks (dd_reports.py:1006). -/
def visit_low_page (c : CrawlIn) (url : String) : String :=
  lower_str (visit_title c url ++ " " ++ visit_excerpt c url)

/-- The lower-cased stripped company name (dd_reports.py:1007). -/
def company_low (c : CrawlIn) : String := lower_str ⟨strip_ws c.company_name.toList⟩

/-- The registry-irrelevance test (dd_reports.py:1010-1014): a registry
page mentioning neither the company name nor its registry number. -/
def visit_registry_irrelevant (c : CrawlIn) (url : String) : Bool :=
  c.is_registry_domain (c.domain_of url) && company_low c ≠ "" &&
  !(company_low c ≠ "" && contains_sub (visit_low_page c url) (company_low c)) &&
  !(c.official_no ≠ "" && contains_sub (lower_str url) ("no=" ++ c.official_no))

/-- Record a URL as visited (dd_reports.py:986). -/
def mark_visited (st : CrawlState) (url : String) : CrawlState :=
  { st with visited := url :: st.visited }

/-- Record the title key and signature of an accepted page
(dd_reports.py:1026-1027). -/
def mark_seen (st : CrawlState) (title_key signature : String) : CrawlState :=
  { st with seen_titles := title_key :: st.seen_titles,
            seen_signatures := signature :: st.seen_signatures }

/-- The evidence row appended for an accepted page (dd_reports.py:1045-1056). -/
def accepted_row (c : CrawlIn) (url : String) (depth : Nat) (source : String)
    (is_int is_reg : Bool) : Row :=
  ⟨url, c.domain_of url, visit_title c url, visit_excerpt c url, (visit_text c url).length,
   (if is_reg then "registry" else "web"), source, depth, is_int⟩

/-- Acceptance of a page (dd_reports.py:1040-1057): bump the classification
counters and append the evidence row. -/
def accept_row (c : CrawlIn) (st4 : CrawlState) (url : String) (depth : Nat)
    (source : String) (is_int is_reg : Bool) : CrawlState :=
  { st4 with
    internal_pages := if is_int then st4.internal_pages + 1 else st4.internal_pages,
    external_pages := if is_int then st4.external_pages else st4.external_pages + 1,
    registry_pages := if is_reg then st4.registry_pages + 1 else st4.registry_pages,
    rows := st4.rows ++ [accepted_row c url depth source is_int is_reg],
    steps := ("ok", url) :: st4.steps }

/-- Registry-page link expansion (dd_reports.py:1080-1090): parents of the
official-site candidates, then the related public URLs. -/
def expand_links_d (c : CrawlIn) (sC : CrawlState) (url html : String) (depth : Nat) :
    CrawlState :=
  if c.is_registry_domain (c.domain_of url) then
    (c.related_urls url html).foldl (fun s u => enqueue c s u (depth + 1) "registry_related")
      ((c.official_site_candidates url html).foldl
        (fun s o => (c.parent_urls o).foldl
          (fun s2 u => enqueue c s2 u 0 "registry_official") s) sC)
  else sC

/-- Link expansion after acceptance (dd_reports.py:1059-1093): internal
links within the depth budget, hint links, parent routes, registry
expansion, external signal links; nothing without HTML. -/
def expand_links (c : CrawlIn) (st6 : CrawlState) (url html : String) (depth : Nat) :
    CrawlState :=
  if html ≠ "" then
    (c.external_links url html).foldl (fun s u => enqueue c s u (depth + 1) "external_signal")
      (expand_links_d c
        ((c.parent_urls url).foldl (fun s u => enqueue c s u (depth - 1) "parent_route")
          ((c.hint_links url html).foldl (fun s u => enqueue c s u (depth + 1) "hint_link")
            (if c.is_internal url && depth < c.internal_max_depth then
              (c.internal_links url html).foldl
                (fun s u => enqueue c s u (depth + 1) "official_internal") st6
            else st6)))
        url html depth)
  else st6

/-- The mid-loop public-search triggers (dd_reports.py:1095-1108). -/
def maybe_search (c : CrawlIn) (st7 : CrawlState) : CrawlState :=
  if c.is_registry_domain (c.domain_of c.official_url) && !st7.did_search &&
      c.company_name ≠ "" then
    (if 2 ≤ st7.registry_pages || 4 ≤ st7.visited.length then
      enqueue_public_search c st7 else st7)
  else if c.always_web_search && !st7.did_search && c.company_name ≠ "" then
    (if 3 ≤ st7.internal_pages || (6 ≤ st7.visited.length && st7.external_pages = 0) then
      enqueue_public_search c st7 else st7)
  else st7

/-- The early-stop check closing an accepting iteration
(dd_reports.py:1110-1113): enough pages and an exhausted frontier. -/
def finish_step (c : CrawlIn) (st8 : CrawlState) : StepRes :=
  if c.min_target_pages ≤ st8.rows.length && st8.queue.length ≤ st8.idx then .stop st8
  else .next st8

/-- The classification-cap checks and acceptance tail of an iteration
(dd_reports.py:1031-1113), entered once the page passed the content,
not-found, relevance and de-duplication gates; `st4` already carries the
visited URL and the seen title key / signature. -/
def crawl_accept (c : CrawlIn) (st4 : CrawlState) (url : String) (depth : Nat)
    (source : String) : StepRes :=
  if c.is_registry_domain (c.domain_of url) && c.max_registry_pages ≤ st4.registry_pages then
    .next { st4 with steps := ("registry_cap", url) :: st4.steps }
  else if !c.is_internal url && c.max_external_pages ≤ st4.external_pages then
    .next { st4 with steps := ("external_cap", url) :: st4.steps }
  else
    finish_step c (maybe_search c (expand_links c
      (accept_row c st4 url depth source (c.is_internal url)
        (c.is_registry_domain (c.domain_of url)))
      url (c.fetch_html url) depth))

/-- Processing of a freshly dequeued, not yet visited URL
(dd_reports.py:984-1113): mark it visited, then run the content-length,
not-found, registry-relevance and de-duplication gates in source order
before accepting. -/
def crawl_visit (c : CrawlIn) (st2 : CrawlState) (url : String) (depth : Nat)
    (source : String) : StepRes :=
  if (visit_text c url).length < 80 then
    .next { mark_visited st2 url with steps :=
      ((if c.fetch_html url = "" && visit_text c url = "" then "fetch_failed"
        else "content_too_short"), url) :: st2.steps }
  else if contains_sub (visit_low_page c url) "404" ||
      contains_sub (visit_low_page c url) "找不到任何頁面" then
    .next { mark_visited st2 url with steps := ("not_found_page", url) :: st2.steps }
  else if visit_registry_irrelevant c url then
    .next { mark_visited st2 url with steps := ("registry_irrelevant", url) :: st2.steps }
  else if dedupe_signature (visit_title c url) (visit_excerpt c url) ∈ st2.seen_signatures then
    .next { mark_visited st2 url with steps := ("duplicate_title", url) :: st2.steps }
  else if title_key_of (visit_title c url) ∈ st2.seen_titles ∧
      (excerpt_key_of (visit_excerpt c url)).length < 40 then
    .next { mark_visited st2 url with steps := ("duplicate_title", url) :: st2.steps }
  else
    crawl_accept c (mark_seen (mark_visited st2 url) (title_key_of (visit_title c url))
      (dedupe_signature (visit_title c url) (visit_excerpt c url))) url depth source

/-- The one-shot search refill when the frontier is exhausted
(dd_reports.py:969-975). -/
def refill (c : CrawlIn) (st : CrawlState) : CrawlState :=
  if st.queue.length ≤ st.idx then
    (if !st.did_search && c.company_name ≠ "" then enqueue_public_search c st else st)
  else st

/-- Advance the frontier read index (dd_reports.py:982). -/
def advance (st : CrawlState) : CrawlState := { st with idx := st.idx + 1 }

/-- One iteration of the `while len(evidence_rows) < max_pages` loop of
`_collect_company_evidence` (dd_reports.py:963-1115), against the oracles in
`c`.  Every branch mirrors a `continue` / `break` / fall-through of the
source, in source order: budget guard, timeout, frontier exhaustion with
one-shot search refill, visited check, and the per-page pipeline of
`crawl_visit`. -/
def crawl_step (c : CrawlIn) (st : CrawlState) : StepRes :=
  if c.max_pages ≤ st.rows.length then .stop st
  else if c.crawl_max_sec < c.time_at st.iter then
    .stop { st with steps := ("stop_by_timeout", "") :: st.steps }
  else if (refill c st).queue.length ≤ (refill c st).idx then .stop (refill c st)
  else
    match (refill c st).queue[(refill c st).idx]? with
    | none => .stop (refill c st)
    | some item =>
      if item.url ∈ (advance (refill c st)).visited then .next (advance (refill c st))
      else crawl_visit c (advance (refill c st)) item.url item.depth item.source

/-- The state carried by either form of a loop-iteration result. -/
def step_state : StepRes → CrawlState
  | .stop st => st
  | .next st => st

/-- The crawl loop, fuelled; Python's loop always terminates because each
iteration advances `idx` and the queue only grows on acceptance (bounded by
the page budget), so every real run is `crawl_loop` with enough fuel. -/
def crawl_loop (c : CrawlIn) : Nat → CrawlState → CrawlState
  | 0, st => st
  | fuel + 1, st =>
    match crawl_step c st with
    | .stop s => s
    | .next s => crawl_loop c fuel { s with iter := s.iter + 1 }

/-- The empty initial crawl state. -/
def init_crawl_state : CrawlState :=
  ⟨[], [], 0, [], [], [], [], 0, 0, 0, false, [], 0⟩

/-- Seeding of one extra URL (dd_reports.py:921-925): the stripped URL and
its parent paths. -/
def seed_extra (c : CrawlIn) (s : CrawlState) (u : String) : CrawlState :=
  if (⟨strip_ws u.toList⟩ : String) = "" then s
  else (c.parent_urls ⟨strip_ws u.toList⟩).foldl
    (fun s2 p => enqueue c s2 p 0 "extra_parent")
    (enqueue c s ⟨strip_ws u.toList⟩ 0 "extra_url")

/-- Frontier seeding, continued: the extra URLs and their parent paths
(dd_reports.py:918-925). -/
def seed_crawl (c : CrawlIn) : CrawlState :=
  c.extra_urls.foldl (seed_extra c)
    (c.seed_sitemap.foldl (fun s u => enqueue c s u 1 "official_sitemap")
      ((c.parent_urls c.official_url).foldl (fun s u => enqueue c s u 0 "official_parent")
        (c.seed_internal.foldl (fun s u => enqueue c s u 0 "official_seed")
          init_crawl_state)))

/-- `dd_reports.REGISTRY_NOISE_TITLE_HINTS`. -/
def registry_noise_title_hints : List String :=
  ["搜尋公司列表", "所有權人", "商標", "分類", "同地址", "相關公司"]

/-- The keyword vocabulary of `_company_relevance_score`. -/
def relevance_keywords : List String :=
  ["about", "team", "founder", "product", "technology", "case study", "news",
   "press", "partner", "investor", "關於", "團隊", "產品", "技術", "客戶",
   "合作", "募資", "新聞"]

/-- `dd_reports._overlap_score`: +1.0 per matched keyword shorter than five
characters, +1.4 per longer matched keyword. -/
def overlap_score (text : String) (keywords : List String) : ℚ :=
  let l := lower_str text
  keywords.foldl (fun acc kw =>
    if kw ≠ "" && contains_sub l (lower_str kw) then
      acc + (if kw.length < 5 then 1 else 14/10)
    else acc) 0

/-- `dd_reports._company_relevance_score` (lines 778-825), over exact
rationals. -/
def company_relevance_score (title excerpt company_name : String)
    (is_registry is_official_site : Bool) (crawl_source : String) : ℚ :=
  let text := lower_str (title ++ " " ++ excerpt)
  let company_low := lower_str ⟨strip_ws company_name.toList⟩
  let s1 : ℚ := if company_low ≠ "" && contains_sub text company_low then 24/10 else 0
  let s2 := if is_official_site then s1 + 2 else s1
  let s3 := if !is_registry then s2 + 16/10 else s2
  let s4 := if crawl_source = "public_search" || crawl_source = "registry_official" ||
      crawl_source = "registry_related" then s3 + 9/10 else s3
  let s5 := s4 + qmin 2 (overlap_score text relevance_keywords * (18/100))
  let s6 := registry_noise_title_hints.foldl
    (fun acc noise => if contains_sub text (lower_str noise) then acc - 9/10 else acc) s5
  py_round s6 3

/-- The sort order of `_prioritize_company_evidence`:
`key=(relevance_score, content_chars), reverse=True` — descending
lexicographically, ties keeping the original order (Python's sort is
stable, modelled by a stable insertion sort). -/
def ev_key_le (a b : Row × ℚ) : Prop :=
  b.2 < a.2 ∨ (b.2 = a.2 ∧ b.1.content_chars ≤ a.1.content_chars)

instance : DecidableRel ev_key_le := fun a b => by
  unfold ev_key_le; infer_instance

/-- The per-row domain used by the domain re-cap
(`str(row.get("domain") or "unknown")`). -/
def row_domain (r : Row) : String := if r.domain = "" then "unknown" else r.domain

/-- Lookup in a per-domain counter table (Python `dict.get(d, 0)` /
`defaultdict(int)` access). -/
def lookup_cnt (counts : List (String × Nat)) (d : String) : Nat :=
  ((counts.find? (fun p => p.1 == d)).map (·.2)).getD 0

/-- The domain re-cap walk of `_prioritize_company_evidence` (lines 852-863):
skip a row once its domain already has 4 picks, stop once `max_pages` rows
are kept. -/
def domain_cap_walk (max_pages : Nat) :
    List (Row × ℚ) → List (String × Nat) → List (Row × ℚ) → List (Row × ℚ)
  | [], _, acc => acc.reverse
  | e :: rest, counts, acc =>
    if 4 ≤ lookup_cnt counts (row_domain e.1) then domain_cap_walk max_pages rest counts acc
    else if max_pages ≤ (e :: acc).length then (e :: acc).reverse
    else domain_cap_walk max_pages rest
      ((row_domain e.1, lookup_cnt counts (row_domain e.1) + 1) :: counts) (e :: acc)

/-- `dd_reports._prioritize_company_evidence` (lines 828-863): score every
row, sort descending by (relevance, content length), then re-cap per source
domain at 4 and truncate to `max_pages`. -/
def prioritize_company_evidence (rows : List Row) (company_name : String)
    (max_pages : Nat) : List (Row × ℚ) :=
  if rows.isEmpty then []
  else domain_cap_walk max_pages
    ((rows.map (fun r =>
      (r, company_relevance_score r.title r.excerpt company_name
        (r.source_type = "registry") r.is_official_site r.crawl_source))).insertionSort ev_key_le)
    [] []

/-- `dd_reports._collect_company_evidence` (lines 866-1150): seed the
frontier, run the bounded crawl loop, then post-process the accepted rows
with `_prioritize_company_evidence`.  Returns the prioritized evidence
(each row paired with its relevance score) and the final loop state
(whose counters and trace feed the returned `trace` dict). -/
def collect_company_evidence (c : CrawlIn) (fuel : Nat) :
    List (Row × ℚ) × CrawlState :=
  let final := crawl_loop c fuel (seed_crawl c)
  (prioritize_company_evidence final.rows c.company_name c.max_pages, final)

/-- The de-duplication signature of an accepted row, recomputed from its
stored title and excerpt (the loop computes it from the same values before
storing them). -/
def signature_of (r : Row) : String := dedupe_signature r.title r.excerpt

/-- The fields of a crawl state that the crawl invariants talk about
(everything except the frontier bookkeeping and the trace). -/
def crawl_core (st : CrawlState) :
    List Row × List String × List String × Nat × Nat × Nat :=
  (st.rows, st.visited, st.seen_signatures,
   st.internal_pages, st.external_pages, st.registry_pages)

/-! ### backend/deep_research_agent.py — the multi-task orchestrator -/

/-- `deep_research_agent.TaskSpec`. -/
structure TaskSpec where
  task_id : String
  name : String
  objective : String
  keywords : List String
  queries : List String
deriving Repr, DecidableEq

/-- `deep_research_agent._build_tasks` (lines 352-425): the five fixed
research tasks; `domain_of` abstracts `_domain`. -/
def build_tasks (company_name company_url : String) (domain_of : String → String) :
    List TaskSpec :=
  let dom := domain_of company_url
  let site_q := if dom ≠ "" then ["site:" ++ dom ++ " " ++ company_name] else [company_name]
  [ ⟨"business", "商業與營運調查",
      "確認市場規模、競爭對手、產品定位、客戶案例、收費模式與營運訊號",
      ["市場", "競爭", "客戶", "案例", "pricing", "revenue", "KPI", "GTM", "產品"],
      site_q ++
        ["\"" ++ company_name ++ "\" 市場 競爭",
         "\"" ++ company_name ++ "\" pricing OR 價格 OR 收費",
         "\"" ++ company_name ++ "\" customer OR case study OR 客戶案例",
         "\"" ++ company_name ++ "\" revenue OR ARR OR 營收"]⟩,
    ⟨"financial", "財務與稅務調查",
      "搜尋融資、股權、估值、財務揭露、稅務或債務等公開訊號",
      ["融資", "funding", "valuation", "investor", "股東", "cap table", "財務", "稅"],
      site_q ++
        ["\"" ++ company_name ++ "\" 融資",
         "\"" ++ company_name ++ "\" funding",
         "\"" ++ company_name ++ "\" investor",
         "\"" ++ company_name ++ "\" valuation",
         "\"" ++ company_name ++ "\" 股東 OR 董事 OR 增資"]⟩,
    ⟨"legal", "法律與合約調查",
      "檢視訴訟、法規合規、條款、隱私政策、專利與商標訊號",
      ["訴訟", "lawsuit", "compliance", "terms", "privacy", "專利", "商標", "license"],
      site_q ++
        ["\"" ++ company_name ++ "\" lawsuit OR litigation",
         "\"" ++ company_name ++ "\" terms of service",
         "\"" ++ company_name ++ "\" privacy policy",
         "\"" ++ company_name ++ "\" patent OR 專利",
         "\"" ++ company_name ++ "\" trademark OR 商標"]⟩,
    ⟨"team", "團隊能力調查",
      "確認創辦人背景、團隊頁面、招聘訊號、技術與商業職缺配置",
      ["founder", "team", "leadership", "linkedin", "careers", "jobs", "招聘", "徵才"],
      site_q ++
        ["\"" ++ company_name ++ "\" founder",
         "\"" ++ company_name ++ "\" team",
         "\"" ++ company_name ++ "\" linkedin",
         "\"" ++ company_name ++ "\" careers OR jobs",
         "\"" ++ company_name ++ "\" hiring"]⟩,
    ⟨"technology", "產品與技術調查",
      "確認技術路線、產品文件、部署、架構、變更日誌與工程實作訊號",
      ["docs", "API", "architecture", "deploy", "roadmap", "changelog", "github", "技術", "架構"],
      site_q ++
        ["\"" ++ company_name ++ "\" docs OR documentation",
         "\"" ++ company_name ++ "\" API",
         "\"" ++ company_name ++ "\" architecture",
         "\"" ++ company_name ++ "\" github",
         "\"" ++ company_name ++ "\" changelog OR roadmap"]⟩ ]

/-- The parts of `_run_sub_agent`'s returned dict that are computed by the
sub-agent's own crawl/search/summary cycle, abstracted as an oracle value
(the remaining fields are copied from the task, see `run_sub_agent_shape`). -/
structure SubBody where
  summary : String
  key_findings : List String
  gaps : List String
  citations : List String
  evidence_count : Nat
  elapsed_sec : ℚ
deriving Repr, DecidableEq

/-- One entry of the orchestrator's `sub_reports` list. -/
structure SubReport where
  task_id : String
  name : String
  objective : String
  summary : String
  key_findings : List String
  gaps : List String
  citations : List String
  evidence_count : Nat
  elapsed_sec : ℚ
deriving Repr, DecidableEq

/-- The shape of a successful `_run_sub_agent` return (lines 584-595):
`task_id`, `name` and `objective` always come from the task itself. -/
def run_sub_agent_shape (t : TaskSpec) (b : SubBody) : SubReport :=
  ⟨t.task_id, t.name, t.objective, b.summary, b.key_findings, b.gaps,
   b.citations, b.evidence_count, b.elapsed_sec⟩

/-- The placeholder result substituted when a task's future raised
(run_company_deep_research, lines 670-681). -/
def failed_task_placeholder (t : TaskSpec) (exc : String) : SubReport :=
  ⟨t.task_id, t.name, t.objective, "子代理執行失敗：" ++ exc, [],
   ["子代理失敗，請稍後重試或改用更明確的公司名稱 / URL。"], [], 0, 0⟩

/-- Collecting one future's result (lines 666-682): a normal result keeps the
sub-agent's output, an exception is replaced by the placeholder. -/
def handle_task (exec : TaskSpec → Except String SubBody) (t : TaskSpec) : SubReport :=
  match exec t with
  | .ok b => run_sub_agent_shape t b
  | .error e => failed_task_placeholder t e

/-- The fan-in sort order: `sub_reports.sort(key=lambda x: str(x.get("task_id")))`. -/
def task_id_le (a b : SubReport) : Prop :=
  str_le_b a.task_id.toList b.task_id.toList = true

instance : DecidableRel task_id_le := fun a b => by
  unfold task_id_le; infer_instance

/-- Python `_domain(url).split(".")[0]` (note `"".split(".") == [""]`). -/
def first_dot_component (s : String) : String :=
  ⟨s.toList.takeWhile (fun ch => !(ch = '.'))⟩

/-- The caller-visible shape of `run_company_deep_research`'s return that the
claims refer to: the resolved subject name and the ordered sub-report list. -/
structure ResearchOut where
  company_name : String
  sub_reports : List SubReport
deriving Repr, DecidableEq

/-- Line 653 of `run_company_deep_research`:
`company_name = (company_name or "").strip() or _domain(company_url).split(".")[0]`
(the fallback uses the URL as passed, before it is itself stripped). -/
def resolve_company_name (company_name company_url : String)
    (domain_of : String → String) : String :=
  let name0 : String := ⟨strip_ws company_name.toList⟩
  if name0 ≠ "" then name0 else first_dot_component (domain_of company_url)

/-- `deep_research_agent.run_company_deep_research` (lines 645-703), with the
per-task execution abstracted by `exec` (a raising task yields `.error`) and
the unordered `as_completed` arrival of results abstracted by
`completion_order` (any permutation of the task list).  The subject name
falls back to the first dot-component of the URL's domain when blank
(line 653); results are collected in completion order and re-sorted by task
id (line 683). -/
def run_company_deep_research (domain_of : String → String)
    (exec : TaskSpec → Except String SubBody)
    (completion_order : List TaskSpec → List TaskSpec)
    (company_name company_url : String) : ResearchOut :=
  let name := resolve_company_name company_name company_url domain_of
  let url : String := ⟨strip_ws company_url.toList⟩
  let tasks := build_tasks name url domain_of
  let subs := (completion_order tasks).map (handle_task exec)
  { company_name := name, sub_reports := subs.insertionSort task_id_le }

/-! ### backend/mvp_pipeline.py — the content ranking pipeline -/

/-- `mvp_pipeline.SIGNAL_KEYWORDS`. -/
def signal_keywords : List (String × ℚ) :=
  [("agent", 12/10), ("benchmark", 12/10), ("funding", 12/10),
   ("series a", 115/100), ("series b", 12/10), ("inference", 115/100),
   ("training", 11/10), ("open-source", 11/10), ("demo day", 12/10),
   ("創投", 11/10), ("加速器", 11/10), ("論文", 11/10)]

/-- `mvp_pipeline.EVENT_KEYWORDS`. -/
def event_keywords : List String :=
  ["ai", "demo day", "新創", "創業", "創投", "加速器", "年會", "論壇", "講座",
   "交流會", "工作坊", "黑客松", "徵件", "路演", "媒合", "pitch", "meetup",
   "活動", "報名", "event", "研討會", "conference", "summit", "workshop",
   "seminar"]

/-- `mvp_pipeline.INSIGHT_KEYWORDS`. -/
def insight_keywords : List String :=
  ["ai", "llm", "model", "agent", "paper", "benchmark", "open-source",
   "研究", "創業", "融資"]

/-- `mvp_scraper.match_keywords`: vacuously true on an empty keyword list,
otherwise any lower-cased keyword occurring in the lower-cased text. -/
def match_keywords (text : String) (keywords : List String) : Bool :=
  if keywords.isEmpty then true
  else keywords.any (fun k => contains_sub (lower_str text) (lower_str k))

/-- `mvp_pipeline._signal_score` (lines 243-254). -/
def signal_score (title snippet : String) (event : Bool) : ℚ :=
  let base : ℚ := if event then 4 else 35/10
  let text := lower_str (title ++ " " ++ snippet)
  let bonus := signal_keywords.foldl
    (fun acc kv => if contains_sub text kv.1 then acc + (kv.2 - 1) * 10 else acc) 0
  let bonus := if event && match_keywords text event_keywords then bonus + 15/10 else bonus
  let bonus := if !event && match_keywords text insight_keywords then bonus + 1 else bonus
  qmin 10 (qmax 0 (base + bonus))

/-- A per-kind eligibility/freshness window (`DEFAULT_WINDOW_BY_KIND`). -/
structure RankWindow where
  past_days : Nat
  future_days : Nat
deriving Repr, DecidableEq

/-- `mvp_pipeline._freshness_score` (lines 301-309): dates as integer day
numbers, `today` abstracting `datetime.now(TZ_TAIPEI).date()`. -/
def freshness_score (kind : String) (published_at : Option ℤ)
    (windows : List (String × RankWindow)) (today : ℤ) : ℚ :=
  match published_at with
  | none => 5
  | some d =>
    let delta : ℕ := (today - d).natAbs
    let w := ((windows.find? (fun p => p.1 == kind)).map (·.2)).getD ⟨7, 7⟩
    let max_span : ℕ := max w.past_days (max w.future_days 1)
    py_round (qmax 0 (qmin 10 (10 * (1 - (delta : ℚ) / (max_span : ℚ))))) 2

/-- `mvp_pipeline._authority_score`. -/
def authority_score (authority : ℚ) : ℚ := py_round (qmax 0 (qmin 10 authority)) 2

/-- `mvp_pipeline._diversity_penalty` (lines 316-320): 0 until a domain has
at least two already-picked items, then `min(3.0, (picked - 1) * 1.0)`. -/
def diversity_penalty (source_domain : String) (picked : List (String × Nat)) : ℚ :=
  let current := lookup_cnt picked source_domain
  if current ≤ 1 then 0 else qmin 3 ((current - 1 : ℕ) * 1)

/-- `mvp_pipeline._final_score` (lines 323-325). -/
def final_score (freshness authority signal penalty : ℚ) : ℚ :=
  py_round (qmax 0 (qmin 10
    (freshness * (35/100) + authority * (25/100) + signal * (40/100) - penalty))) 2

/-- One already-scored item entering the diversity-aware selection
(the dicts built at mvp_pipeline.py:548-586, restricted to the fields the
selection reads). -/
structure ScoredRecord where
  title : String
  url : String
  source_domain : String
  freshness_score : ℚ
  authority_score : ℚ
  signal_score : ℚ
deriving Repr, DecidableEq

/-- A selected item with its diversity penalty and final score. -/
structure RankedRecord where
  item : ScoredRecord
  diversity_penalty : ℚ
  final_score : ℚ
deriving Repr, DecidableEq

/-- The triple the balancing pass sorts by:
`key=(signal_score, authority_score, freshness_score)`. -/
def triple_key (x : ScoredRecord) : ℚ × ℚ × ℚ :=
  (x.signal_score, x.authority_score, x.freshness_score)

/-- The descending sort order of the balancing pass (`reverse=True`, ties
keeping original order via a stable sort). -/
def triple_ge (a b : ScoredRecord) : Prop :=
  b.signal_score < a.signal_score ∨
    (b.signal_score = a.signal_score ∧
      (b.authority_score < a.authority_score ∨
        (b.authority_score = a.authority_score ∧
          b.freshness_score ≤ a.freshness_score)))

instance : DecidableRel triple_ge := fun a b => by
  unfold triple_ge; infer_instance

/-- The descending final-score sort order (`key=final_score, reverse=True`). -/
def final_ge (a b : RankedRecord) : Prop := b.final_score ≤ a.final_score

instance : DecidableRel final_ge := fun a b => by
  unfold final_ge; infer_instance

/-- The per-bucket source-balancing walk of `run_mvp_pipeline`
(lines 597-625): skip items whose domain reached the hard cap, otherwise
attach the escalating diversity penalty and the final score, and bump the
domain's count. -/
def balance_walk (cap : Nat) :
    List ScoredRecord → List (String × Nat) → List RankedRecord → List RankedRecord
  | [], _, acc => acc.reverse
  | x :: rest, counts, acc =>
    if cap ≤ lookup_cnt counts x.source_domain then balance_walk cap rest counts acc
    else balance_walk cap rest
      ((x.source_domain, lookup_cnt counts x.source_domain + 1) :: counts)
      (⟨x, diversity_penalty x.source_domain counts,
        final_score x.freshness_score x.authority_score x.signal_score
          (diversity_penalty x.source_domain counts)⟩ :: acc)

/-- The ranking path of `run_mvp_pipeline` for one bucket (lines 589-634 /
657): stable-sort descending by (signal, authority, freshness), walk with
the per-domain cap and diversity penalty, stable-sort descending by final
score, and truncate to the bucket's output cap. -/
def rank_bucket (items : List ScoredRecord) (cap out_cap : Nat) : List RankedRecord :=
  ((balance_walk cap (items.insertionSort triple_ge) [] []).insertionSort final_ge).take out_cap

/-- The claim's diversity-penalty schedule, as C7 words it ("0 for the first
occurrence and increases by a fixed step (1.0) per subsequent occurrence,
capped at 3.0"), as a function of the number of already-accepted items of
the same domain.  Stated only to be compared against the code's schedule. -/
def spec_diversity_penalty (prior : Nat) : ℚ := qmin 3 (prior : ℚ)

/-- The code's diversity-penalty schedule as a function of the number of
already-accepted items of the same domain (what `_diversity_penalty`
computes when the counts table counts the accepted prefix). -/
def penalty_schedule (prior : Nat) : ℚ :=
  if prior ≤ 1 then 0 else qmin 3 (((prior - 1 : ℕ) : ℚ) * 1)

/-- Reference selection walk whose penalty is recomputed from the
already-accepted prefix itself rather than from the running counts table;
`balance_walk` is proved equal to it (theorem `C7_amended_selection`). -/
def spec_walk (cap : Nat) : List ScoredRecord → List RankedRecord → List RankedRecord
  | [], acc => acc.reverse
  | x :: rest, acc =>
    if cap ≤ acc.countP (fun r => r.item.source_domain == x.source_domain) then
      spec_walk cap rest acc
    else spec_walk cap rest
      (⟨x, penalty_schedule (acc.countP (fun r => r.item.source_domain == x.source_domain)),
        final_score x.freshness_score x.authority_score x.signal_score
          (penalty_schedule (acc.countP (fun r => r.item.source_domain == x.source_domain)))⟩ :: acc)

/-! ### Concrete inputs used by counterexamples and witnesses -/

/-- 80 filler characters, used to clear the crawler's minimum text length. -/
def filler80 : String := ⟨List.replicate 80 'a'⟩

/-- Seven same-domain seed URLs. -/
def seven_urls : List String :=
  ["https://a.com/p1", "https://a.com/p2", "https://a.com/p3", "https://a.com/p4",
   "https://a.com/p5", "https://a.com/p6", "https://a.com/p7"]

/-- A crawl input with the smallest allowed registry cap (4) and external cap
(6), the default page budget (16), and an environment in which every fetched
page is an internal page of the official domain with distinct content. -/
def c1_cx : CrawlIn :=
  { max_pages := 16
    min_target_pages := 6
    crawl_max_sec := 45
    internal_max_depth := 2
    max_registry_pages := 4
    max_external_pages := 6
    enable_public_search := false
    always_web_search := false
    company_name := ""
    official_url := "https://a.com/"
    official_no := ""
    sanitize := fun u => u
    domain_of := fun _ => "a.com"
    is_registry_domain := fun _ => false
    is_internal := fun _ => true
    fetch_html := fun u => "h" ++ u
    html_text := fun h => h ++ filler80
    fetch_text := fun _ => ""
    page_title := fun h => h
    internal_links := fun _ _ => []
    hint_links := fun _ _ => []
    parent_urls := fun _ => []
    official_site_candidates := fun _ _ => []
    related_urls := fun _ _ => []
    external_links := fun _ _ => []
    search_urls := []
    seed_internal := seven_urls
    seed_sitemap := []
    extra_urls := []
    time_at := fun _ => 0 }

/-- A two-page variant of `c1_cx`, used to instantiate the crawler
theorems' witnesses on a short concrete run. -/
def crawl_demo : CrawlIn :=
  { c1_cx with seed_internal := ["https://a.com/p1", "https://a.com/p2"] }

/-- A fetch environment whose every attempt yields HTTP 200 with an empty
body, at time 0, with a healthy keyed store. -/
def fetch_env_200_empty : FetchEnv :=
  { attempt_outcome := fun _ => .response 200 ""
    jitter := fun _ => 0
    now := 0
    upsert_raises := false
    health_raises := false
    cache_read_raises := false }

/-- A fetch environment whose every attempt yields HTTP 200 with body
`"hello"`, at time 0, with a healthy keyed store. -/
def fetch_env_200_hello : FetchEnv :=
  { fetch_env_200_empty with attempt_outcome := fun _ => .response 200 "hello" }

/-- A fetch environment whose every attempt yields HTTP 500, one hour after
time 0, with a healthy keyed store. -/
def fetch_env_500 : FetchEnv :=
  { attempt_outcome := fun _ => .response 500 "x"
    jitter := fun _ => 0
    now := 1
    upsert_raises := false
    health_raises := false
    cache_read_raises := false }

/-- A fetch environment for the C4 witness: a retryable 500, then a
non-retryable 404. -/
def fetch_env_mixed : FetchEnv :=
  { attempt_outcome := fun i => if i = 0 then .response 500 "" else .response 404 "n"
    jitter := fun _ => 1/10
    now := 0
    upsert_raises := false
    health_raises := false
    cache_read_raises := false }

/-- Two retries, 24-hour cache TTL (the source defaults). -/
def fetch_cfg_2 : FetchConfig := ⟨2, 24⟩

/-- A domain oracle mapping every URL to the empty domain, the value
`_domain` yields on an empty or scheme-less URL. -/
def dr_domain0 : String → String := fun _ => ""

/-- A sub-agent oracle in which every task completes normally with a fixed
body. -/
def dr_exec_ok : TaskSpec → Except String SubBody :=
  fun _ => .ok ⟨"done", [], [], [], 0, 0⟩

/-- A sub-agent oracle in which the `legal` task raises and the others
complete normally. -/
def dr_exec_one_fail : TaskSpec → Except String SubBody :=
  fun t => if t.task_id = "legal" then .error "boom" else .ok ⟨"done", [], [], [], 2, 1⟩

/-- Two equal-score items from one domain (for the diversity-penalty
counterexample: the second accepted occurrence of a domain). -/
def c7_item1 : ScoredRecord := ⟨"t1", "https://d.com/1", "d.com", 5, 5, 5⟩

/-- Second item of the pair in `c7_item1`'s counterexample. -/
def c7_item2 : ScoredRecord := ⟨"t2", "https://d.com/2", "d.com", 5, 5, 5⟩

/-- Two equal-key items from distinct domains (for the tie-stability
witness). -/
def c8_item1 : ScoredRecord := ⟨"s1", "https://x.com/1", "x.com", 6, 6, 6⟩

/-- Second item of the pair in `c8_item1`'s witness. -/
def c8_item2 : ScoredRecord := ⟨"s2", "https://y.com/2", "y.com", 6, 6, 6⟩

/-- A fetch environment with the keyed-store failure flags replaced (used to
compare runs under different store behaviours). -/
def set_flags (env : FetchEnv) (f1 f2 f3 : Bool) : FetchEnv :=
  { env with upsert_raises := f1, health_raises := f2, cache_read_raises := f3 }

/-! ### Invariants used by the proofs -/

/-- Behavioural specification of one run of the attempt loop of `fetch_url`
starting at attempt `a` with `r` attempts remaining: attempt counting, the
backoff log (every sleep follows `min(6, 0.5·2^i) + jitter(i)` and happens
exactly at the retried attempts, which are all retry-worthy), error
bookkeeping, and progress (a retry-worthy attempt with retries left is
always followed by another attempt). -/
structure FetchLoopSpec (env : FetchEnv) (a r : Nat) (e : LoopExit) : Prop where
  att_lb : a ≤ exit_attempts e
  att_ub : exit_attempts e ≤ a + r
  att_strict : 0 < r → a < exit_attempts e
  sleeps_sound : ∀ p ∈ exit_sleeps e, p.2 = sleep_backoff_base p.1 + env.jitter p.1 ∧
    a ≤ p.1 ∧ p.1 + 1 < exit_attempts e ∧ retry_worthy (env.attempt_outcome p.1) = true
  sleeps_complete : ∀ i, a ≤ i → i + 1 < exit_attempts e →
    (i, sleep_backoff_base i + env.jitter i) ∈ exit_sleeps e
  error_on_exhaust : 0 < r → exit_outcome e = none → (exit_error e).isSome = true
  progress : ∀ i, a ≤ i → i < exit_attempts e → i + 1 < a + r →
    retry_worthy (env.attempt_outcome i) = true → i + 1 < exit_attempts e

/-- The loop invariants of `_collect_company_evidence`: budget and
classification-cap bounds, the visited-set and accepted-set distinctness
properties, and the bookkeeping facts linking them. -/
structure CrawlInv (c : CrawlIn) (st : CrawlState) : Prop where
  rows_le : st.rows.length ≤ c.max_pages
  reg_le : st.registry_pages ≤ c.max_registry_pages
  ext_le : st.external_pages ≤ c.max_external_pages
  int_ext : st.internal_pages + st.external_pages = st.rows.length
  visited_nd : st.visited.Nodup
  urls_nd : (st.rows.map Row.url).Nodup
  sigs_nd : (st.rows.map signature_of).Nodup
  urls_vis : ∀ r ∈ st.rows, r.url ∈ st.visited
  sigs_seen : ∀ r ∈ st.rows, signature_of r ∈ st.seen_signatures

/-! ## Theorems -/

/-! ### General list lemmas -/

/-- A pair that is a sublist of a duplicate-free list stays in order in any
sublist containing both components. -/
theorem pair_sublist_of_sublist {α : Type _} {x y : α} :
    ∀ {l' l : List α}, l'.Sublist l → l.Nodup → [x, y].Sublist l →
      x ∈ l' → y ∈ l' → [x, y].Sublist l' := by
  intro l' l hsub
  induction hsub with
  | slnil => intro _ _ hx _; simp at hx
  | cons a h ih =>
    intro hnd hxy hx hy
    cases hxy with
    | cons _ h2 => exact ih (List.Nodup.of_cons hnd) h2 hx hy
    | cons₂ _ h2 =>
      exact absurd (h.subset hx) ((List.nodup_cons.mp hnd).1)
  | cons₂ a h ih =>
    rename_i l₁ l₂
    intro hnd hxy hx hy
    have hal₂ : a ∉ l₂ := (List.nodup_cons.mp hnd).1
    cases hxy with
    | cons _ h2 =>
      have hxl₂ : x ∈ l₂ := h2.subset (by simp)
      have hax : x ≠ a := by rintro rfl; exact hal₂ hxl₂
      have hyl₂ : y ∈ l₂ := h2.subset (by simp)
      have hay : y ≠ a := by rintro rfl; exact hal₂ hyl₂
      have hx1 : x ∈ l₁ := (List.mem_cons.mp hx).resolve_left hax
      have hy1 : y ∈ l₁ := (List.mem_cons.mp hy).resolve_left hay
      exact (ih (List.Nodup.of_cons hnd) h2 hx1 hy1).cons a
    | cons₂ _ h2 =>
      have hyl₂ : y ∈ l₂ := h2.subset (by simp)
      have hay : y ≠ x := by rintro rfl; exact hal₂ hyl₂
      have hy1 : y ∈ l₁ := (List.mem_cons.mp hy).resolve_left hay
      exact (List.singleton_sublist.mpr hy1).cons₂ x

/-! ### C7: the diversity penalty and final-score formula -/

/-- `_diversity_penalty` as a function of the looked-up prior count. -/
theorem diversity_penalty_schedule (d : String) (counts : List (String × Nat)) :
    diversity_penalty d counts = penalty_schedule (lookup_cnt counts d) := rfl

/-- `lookup_cnt` after pushing an updated entry for `d`. -/
theorem lookup_cnt_cons_self (counts : List (String × Nat)) (d : String) (n : Nat) :
    lookup_cnt ((d, n) :: counts) d = n := by
  simp [lookup_cnt, List.find?]

/-- `lookup_cnt` after pushing an entry for a different key. -/
theorem lookup_cnt_cons_ne (counts : List (String × Nat)) {d d' : String} (n : Nat)
    (h : d ≠ d') : lookup_cnt ((d, n) :: counts) d' = lookup_cnt counts d' := by
  simp only [lookup_cnt, List.find?]
  rw [show ((d, n).1 == d') = false by simpa using h]

/-- The balancing walk of `run_mvp_pipeline` equals the reference walk that
recomputes the prior-occurrence count from the accepted prefix, whenever the
counts table agrees with the accumulator. -/
theorem balance_walk_eq_spec (cap : Nat) :
    ∀ (l : List ScoredRecord) (counts : List (String × Nat)) (acc : List RankedRecord),
      (∀ d : String, lookup_cnt counts d =
        acc.countP (fun r => r.item.source_domain == d)) →
      balance_walk cap l counts acc = spec_walk cap l acc := by
  intro l
  induction l with
  | nil => intro counts acc _; rfl
  | cons x rest ih =>
    intro counts acc hinv
    have hcnt : lookup_cnt counts x.source_domain =
        acc.countP (fun r => r.item.source_domain == x.source_domain) :=
      hinv x.source_domain
    by_cases hcap : cap ≤ lookup_cnt counts x.source_domain
    · rw [balance_walk, spec_walk, if_pos hcap, if_pos (hcnt ▸ hcap)]
      exact ih counts acc hinv
    · rw [balance_walk, spec_walk, if_neg hcap, if_neg (hcnt ▸ hcap)]
      have hpen : diversity_penalty x.source_domain counts =
          penalty_schedule (acc.countP (fun r => r.item.source_domain == x.source_domain)) := by
        rw [diversity_penalty_schedule, hcnt]
      rw [hpen, hcnt]
      apply ih
      intro d
      by_cases hd : x.source_domain = d
      · subst hd
        rw [lookup_cnt_cons_self]
        simp [List.countP_cons, hcnt]
      · rw [lookup_cnt_cons_ne _ _ hd]
        rw [hinv d]
        simp [List.countP_cons, show (x.source_domain == d) = false by simpa using hd]

/-- Every record produced by the balancing walk (beyond the accumulator)
carries the final score computed by `_final_score` from its own fields. -/
theorem balance_walk_final (cap : Nat) :
    ∀ (l : List ScoredRecord) (counts : List (String × Nat)) (acc : List RankedRecord)
      (r : RankedRecord), r ∈ balance_walk cap l counts acc →
      r ∈ acc ∨ r.final_score = final_score r.item.freshness_score r.item.authority_score
        r.item.signal_score r.diversity_penalty := by
  intro l
  induction l with
  | nil =>
    intro counts acc r hr
    rw [balance_walk] at hr
    exact .inl (List.mem_reverse.mp hr)
  | cons x rest ih =>
    intro counts acc r hr
    rw [balance_walk] at hr
    split at hr
    · exact ih _ _ _ hr
    · rcases ih _ _ _ hr with h | h
      · rcases List.mem_cons.mp h with rfl | h
        · exact .inr rfl
        · exact .inl h
      · exact .inr h

/-- The balancing walk wraps a sublist of its input, after the accumulator. -/
theorem balance_walk_items (cap : Nat) :
    ∀ (l : List ScoredRecord) (counts : List (String × Nat)) (acc : List RankedRecord),
      ∃ t, (balance_walk cap l counts acc).map (·.item) =
        (acc.reverse.map (·.item)) ++ t ∧ t.Sublist l := by
  intro l
  induction l with
  | nil =>
    intro counts acc
    exact ⟨[], by simp [balance_walk], List.Sublist.refl _⟩
  | cons x rest ih =>
    intro counts acc
    rw [balance_walk]
    split
    · obtain ⟨t, hmap, hsub⟩ := ih counts acc
      exact ⟨t, hmap, hsub.cons x⟩
    · obtain ⟨t, hmap, hsub⟩ := ih _ (⟨x, diversity_penalty x.source_domain counts,
        final_score x.freshness_score x.authority_score x.signal_score
          (diversity_penalty x.source_domain counts)⟩ :: acc)
      refine ⟨x :: t, ?_, hsub.cons₂ x⟩
      rw [hmap]
      simp

/-- C7, corrected: the final-score formula of the content ranking pipeline.
Every selected item's final score is
`round(clamp([0, 10], freshness*0.35 + authority*0.25 + signal*0.40 -
diversityPenalty), 2)`, and the selection equals a reference walk whose
diversity penalty, as a function of the number `k` of already-accepted items
of the same domain, is 0 for `k ≤ 1` (the first TWO occurrences) and
`min(3.0, k - 1)` afterwards — not, as the claim states, 0 only for the
first occurrence and `k` afterwards. -/
theorem C7_penalty_and_final (items : List ScoredRecord) (cap out_cap : Nat) :
    rank_bucket items cap out_cap =
      ((spec_walk cap (items.insertionSort triple_ge) []).insertionSort final_ge).take out_cap ∧
    ∀ r ∈ rank_bucket items cap out_cap,
      r.final_score = final_score r.item.freshness_score r.item.authority_score
        r.item.signal_score r.diversity_penalty := by
  constructor
  · unfold rank_bucket
    rw [balance_walk_eq_spec cap _ [] [] (fun d => by simp [lookup_cnt])]
  · intro r hr
    have hr1 : r ∈ (balance_walk cap (items.insertionSort triple_ge) [] []).insertionSort
        final_ge := (List.take_sublist out_cap _).subset hr
    have hr2 : r ∈ balance_walk cap (items.insertionSort triple_ge) [] [] :=
      (List.perm_insertionSort final_ge _).subset hr1
    rcases balance_walk_final cap _ [] [] r hr2 with h | h
    · simp at h
    · exact h

/-- C7 counterexample: two equal-scored items of the same domain.  The claim
says the second accepted occurrence of a domain gets penalty
`0 + 1.0 = 1.0` and hence final score 4.0; the code gives it penalty 0 and
final score 5.0 (`_diversity_penalty` returns 0 whenever the prior count is
at most 1). -/
theorem C7_counterexample :
    (rank_bucket [c7_item1, c7_item2] 12 150).map (·.diversity_penalty) = [0, 0] ∧
    (rank_bucket [c7_item1, c7_item2] 12 150).map (·.final_score) = [5, 5] ∧
    spec_diversity_penalty 1 = 1 ∧
    final_score 5 5 5 (spec_diversity_penalty 1) = 4 := by
  with_unfolding_all decide

/-- Witness for `C7_penalty_and_final` at a concrete two-item input. -/
theorem C7_penalty_and_final_witness :
    (rank_bucket [c7_item1, c7_item2] 12 150 =
      ((spec_walk 12 ([c7_item1, c7_item2].insertionSort triple_ge) []).insertionSort
        final_ge).take 150) ∧
    (⟨c7_item1, 0, 5⟩ : RankedRecord) ∈ rank_bucket [c7_item1, c7_item2] 12 150 ∧
    (5 : ℚ) = final_score 5 5 5 0 :=
  ⟨(C7_penalty_and_final [c7_item1, c7_item2] 12 150).1,
   by with_unfolding_all decide,
   (C7_penalty_and_final [c7_item1, c7_item2] 12 150).2 ⟨c7_item1, 0, 5⟩
     (by with_unfolding_all decide)⟩

/-! ### C8: determinism and tie stability of the ranking path -/

/-- C8: the ranking path is a pure function of the item batch and its
configuration (two invocations on identical inputs give identical ordered
output), and ties are broken by original batch order: two distinct items
with equal (signal, authority, freshness) sort keys and equal computed final
scores appear in the output in their original batch order. -/
theorem C8_rank_deterministic_stable :
    (∀ (items₁ items₂ : List ScoredRecord) (cap₁ cap₂ out_cap₁ out_cap₂ : Nat),
        items₁ = items₂ → cap₁ = cap₂ → out_cap₁ = out_cap₂ →
        rank_bucket items₁ cap₁ out_cap₁ = rank_bucket items₂ cap₂ out_cap₂) ∧
    (∀ (items : List ScoredRecord) (cap out_cap : Nat) (a b : ScoredRecord)
        (ra rb : RankedRecord), items.Nodup → [a, b].Sublist items →
        triple_key a = triple_key b →
        ra ∈ rank_bucket items cap out_cap → rb ∈ rank_bucket items cap out_cap →
        ra.item = a → rb.item = b → ra.final_score = rb.final_score →
        [ra, rb].Sublist (rank_bucket items cap out_cap)) := by
  constructor
  · intro i1 i2 c1 c2 o1 o2 h hc ho
    rw [h, hc, ho]
  · intro items cap oc a b ra rb hnd hsub hkey hra hrb hia hib hfin
    have h1 : a.signal_score = b.signal_score := congrArg (fun p => p.1) hkey
    have h2 : a.authority_score = b.authority_score := congrArg (fun p => p.2.1) hkey
    have h3 : a.freshness_score = b.freshness_score := congrArg (fun p => p.2.2) hkey
    have htg : triple_ge a b := Or.inr ⟨h1.symm, Or.inr ⟨h2.symm, le_of_eq h3.symm⟩⟩
    have hab_sorted : [a, b].Sublist (items.insertionSort triple_ge) :=
      List.pair_sublist_insertionSort htg hsub
    have hnd_sorted : (items.insertionSort triple_ge).Nodup :=
      ((List.perm_insertionSort triple_ge items).nodup_iff).mpr hnd
    obtain ⟨t, hmap, hts⟩ :=
      balance_walk_items cap (items.insertionSort triple_ge) [] []
    have hmap' : (balance_walk cap (items.insertionSort triple_ge) [] []).map (·.item) = t := by
      simpa using hmap
    have hbsub : ((balance_walk cap (items.insertionSort triple_ge) [] []).map
        (·.item)).Sublist (items.insertionSort triple_ge) := hmap' ▸ hts
    have hnd_items_bal := List.Nodup.sublist hbsub hnd_sorted
    have hnd_bal : (balance_walk cap (items.insertionSort triple_ge) [] []).Nodup :=
      List.Nodup.of_map _ hnd_items_bal
    have hra_fin : ra ∈ (balance_walk cap (items.insertionSort triple_ge) [] []).insertionSort
        final_ge := (List.take_sublist oc _).subset hra
    have hrb_fin : rb ∈ (balance_walk cap (items.insertionSort triple_ge) [] []).insertionSort
        final_ge := (List.take_sublist oc _).subset hrb
    have hra_bal : ra ∈ balance_walk cap (items.insertionSort triple_ge) [] [] :=
      (List.perm_insertionSort final_ge _).subset hra_fin
    have hrb_bal : rb ∈ balance_walk cap (items.insertionSort triple_ge) [] [] :=
      (List.perm_insertionSort final_ge _).subset hrb_fin
    have ham : a ∈ (balance_walk cap (items.insertionSort triple_ge) [] []).map (·.item) :=
      List.mem_map.mpr ⟨ra, hra_bal, hia⟩
    have hbm : b ∈ (balance_walk cap (items.insertionSort triple_ge) [] []).map (·.item) :=
      List.mem_map.mpr ⟨rb, hrb_bal, hib⟩
    have hpair_items : [a, b].Sublist ((balance_walk cap (items.insertionSort triple_ge)
        [] []).map (·.item)) :=
      pair_sublist_of_sublist hbsub hnd_sorted hab_sorted ham hbm
    obtain ⟨l', hl'sub, hl'eq⟩ := List.sublist_map_iff.mp hpair_items
    cases l' with
    | nil => simp at hl'eq
    | cons ra' l2 =>
      cases l2 with
      | nil => simp at hl'eq
      | cons rb' l3 =>
        cases l3 with
        | cons z l4 => simp at hl'eq
        | nil =>
          obtain ⟨h1', h2'⟩ : a = ra'.item ∧ b = rb'.item := by simpa using hl'eq
          have hra'mem : ra' ∈ balance_walk cap (items.insertionSort triple_ge) [] [] :=
            hl'sub.subset (by simp)
          have hrb'mem : rb' ∈ balance_walk cap (items.insertionSort triple_ge) [] [] :=
            hl'sub.subset (by simp)
          have hre : ra' = ra :=
            List.inj_on_of_nodup_map hnd_items_bal hra'mem hra_bal (h1'.symm.trans hia.symm)
          have hre2 : rb' = rb :=
            List.inj_on_of_nodup_map hnd_items_bal hrb'mem hrb_bal (h2'.symm.trans hib.symm)
          have hpair_bal : [ra, rb].Sublist
              (balance_walk cap (items.insertionSort triple_ge) [] []) := by
            rw [← hre, ← hre2]; exact hl'sub
          have hfge : final_ge ra rb := le_of_eq hfin.symm
          have hpair_fin : [ra, rb].Sublist ((balance_walk cap
              (items.insertionSort triple_ge) [] []).insertionSort final_ge) :=
            List.pair_sublist_insertionSort hfge hpair_bal
          have hnd_fin : ((balance_walk cap (items.insertionSort triple_ge)
              [] []).insertionSort final_ge).Nodup :=
            ((List.perm_insertionSort final_ge _).nodup_iff).mpr hnd_bal
          exact pair_sublist_of_sublist (List.take_sublist oc _) hnd_fin hpair_fin hra hrb

/-- Witness for `C8_rank_deterministic_stable`: two equal-key items of
distinct domains keep their batch order in the output. -/
theorem C8_rank_deterministic_stable_witness :
    rank_bucket [c8_item1, c8_item2] 12 150 = rank_bucket [c8_item1, c8_item2] 12 150 ∧
    [(⟨c8_item1, 0, 6⟩ : RankedRecord), ⟨c8_item2, 0, 6⟩].Sublist
      (rank_bucket [c8_item1, c8_item2] 12 150) :=
  ⟨C8_rank_deterministic_stable.1 [c8_item1, c8_item2] [c8_item1, c8_item2] 12 12 150 150
      rfl rfl rfl,
   C8_rank_deterministic_stable.2 [c8_item1, c8_item2] 12 150 c8_item1 c8_item2
      ⟨c8_item1, 0, 6⟩ ⟨c8_item2, 0, 6⟩
      (by with_unfolding_all decide) (by with_unfolding_all decide)
      (by with_unfolding_all decide) (by with_unfolding_all decide)
      (by with_unfolding_all decide) rfl rfl rfl⟩

/-! ### The fetch layer: loop characterisation -/

@[simp] theorem add_sleep_sleeps (s : Nat × ℚ) (e : LoopExit) :
    exit_sleeps (add_sleep s e) = s :: exit_sleeps e := by cases e <;> rfl

@[simp] theorem add_sleep_attempts (s : Nat × ℚ) (e : LoopExit) :
    exit_attempts (add_sleep s e) = exit_attempts e := by cases e <;> rfl

@[simp] theorem add_sleep_error (s : Nat × ℚ) (e : LoopExit) :
    exit_error (add_sleep s e) = exit_error e := by cases e <;> rfl

@[simp] theorem add_sleep_status (s : Nat × ℚ) (e : LoopExit) :
    exit_status (add_sleep s e) = exit_status e := by cases e <;> rfl

@[simp] theorem add_sleep_outcome (s : Nat × ℚ) (e : LoopExit) :
    exit_outcome (add_sleep s e) = exit_outcome e := by cases e <;> rfl

/-- Unfolding of the loop with no attempts remaining. -/
theorem fetch_loop_zero (env : FetchEnv) (url source : String) (store : CacheStore)
    (a : Nat) (le : Option String) (ls : Nat) :
    fetch_loop env url source store 0 a le ls = .exhausted [] a le ls := rfl

/-- Unfolding of the loop at a live 200 response. -/
theorem fetch_loop_200 {env : FetchEnv} (url source : String) (store : CacheStore)
    {a : Nat} {body : String} (h : env.attempt_outcome a = .response 200 body)
    (r : Nat) (le : Option String) (ls : Nat) :
    fetch_loop env url source store (r + 1) a le ls =
      .success ⟨true, 200, body, url, false, none⟩
        (if env.upsert_raises then store
          else upsert_source_cache store url ⟨200, body, env.now, source⟩)
        (if env.upsert_raises || env.health_raises then [] else [(source, true)])
        [] (a + 1) le 200 := by
  rw [fetch_loop, h]
  simp

/-- Unfolding of the loop at a retryable non-200 status with retries left. -/
theorem fetch_loop_retry_status {env : FetchEnv} (url source : String) (store : CacheStore)
    {a s : Nat} {body : String} (h : env.attempt_outcome a = .response s body)
    (h200 : ¬ s = 200) (hr : retryable s = true) {r : Nat} (hpos : 0 < r)
    (le : Option String) (ls : Nat) :
    fetch_loop env url source store (r + 1) a le ls =
      add_sleep (a, sleep_backoff_base a + env.jitter a)
        (fetch_loop env url source store r (a + 1) le s) := by
  rw [fetch_loop, h]
  simp [h200, hr, hpos]

/-- Unfolding of the loop at a terminal non-200 status (non-retryable, or no
retries left). -/
theorem fetch_loop_break_status {env : FetchEnv} (url source : String) (store : CacheStore)
    {a s : Nat} {body : String} (h : env.attempt_outcome a = .response s body)
    (h200 : ¬ s = 200) {r : Nat} (hstop : (retryable s && decide (0 < r)) = false)
    (le : Option String) (ls : Nat) :
    fetch_loop env url source store (r + 1) a le ls =
      .exhausted [] (a + 1) (some ("HTTP " ++ toString s)) s := by
  rw [fetch_loop, h]
  simp [h200, hstop]

/-- Unfolding of the loop at a retryable exception with retries left. -/
theorem fetch_loop_retry_exn {env : FetchEnv} (url source : String) (store : CacheStore)
    {a : Nat} {t : String} (h : env.attempt_outcome a = .exn t)
    (hre : retryable_exception t = true) {r : Nat} (hpos : 0 < r)
    (le : Option String) (ls : Nat) :
    fetch_loop env url source store (r + 1) a le ls =
      add_sleep (a, sleep_backoff_base a + env.jitter a)
        (fetch_loop env url source store r (a + 1) (some t) ls) := by
  rw [fetch_loop, h]
  simp [hre, hpos]

/-- Unfolding of the loop at a terminal exception (hard failure, or no
retries left). -/
theorem fetch_loop_break_exn {env : FetchEnv} (url source : String) (store : CacheStore)
    {a : Nat} {t : String} (h : env.attempt_outcome a = .exn t)
    {r : Nat} (hstop : (decide (0 < r) && retryable_exception t) = false)
    (le : Option String) (ls : Nat) :
    fetch_loop env url source store (r + 1) a le ls = .exhausted [] (a + 1) (some t) ls := by
  rw [fetch_loop, h]
  simp [hstop]

/-- The attempt loop of `fetch_url` satisfies `FetchLoopSpec` for every
network oracle, starting attempt and remaining-attempt budget. -/
theorem fetch_loop_spec (env : FetchEnv) (url source : String) (store : CacheStore) :
    ∀ (r a : Nat) (le : Option String) (ls : Nat),
      FetchLoopSpec env a r (fetch_loop env url source store r a le ls) := by
  intro r
  induction r with
  | zero =>
    intro a le ls
    rw [fetch_loop_zero]
    refine ⟨le_refl a, by simp [exit_attempts], ?_, ?_, ?_, ?_, ?_⟩
    · intro h; exact absurd h (lt_irrefl 0)
    · intro p hp; simp [exit_sleeps] at hp
    · intro i h1 h2; simp [exit_attempts] at h2; omega
    · intro h; exact absurd h (lt_irrefl 0)
    · intro i h1 h2 h3 _; simp [exit_attempts] at h2 ⊢; omega
  | succ r ih =>
    intro a le ls
    cases ho : env.attempt_outcome a with
    | response s body =>
      by_cases h200 : s = 200
      · subst h200
        rw [fetch_loop_200 url source store ho r le ls]
        refine ⟨by simp [exit_attempts], by simp [exit_attempts], ?_, ?_, ?_, ?_, ?_⟩
        · intro _; simp [exit_attempts]
        · intro p hp; simp [exit_sleeps] at hp
        · intro i h1 h2; simp [exit_attempts] at h2; omega
        · intro _ hout; simp [exit_outcome] at hout
        · intro i h1 h2 h3 hw
          simp only [exit_attempts] at h2 ⊢
          have hia : i = a := by omega
          subst hia
          rw [ho] at hw
          simp [retry_worthy, retryable] at hw
      · by_cases hr : retryable s = true
        · by_cases hpos : 0 < r
          · rw [fetch_loop_retry_status url source store ho h200 hr hpos le ls]
            have sp := ih (a + 1) le s
            refine ⟨?_, ?_, ?_, ?_, ?_, ?_, ?_⟩
            · simp only [add_sleep_attempts]
              exact le_trans (Nat.le_succ a) sp.att_lb
            · simp only [add_sleep_attempts]
              have := sp.att_ub; omega
            · intro _
              simp only [add_sleep_attempts]
              have := sp.att_lb; omega
            · intro p hp
              simp only [add_sleep_sleeps, List.mem_cons] at hp
              rcases hp with rfl | hp
              · refine ⟨rfl, le_refl a, ?_, ?_⟩
                · simp only [add_sleep_attempts]
                  exact sp.att_strict hpos
                · rw [ho]; simp [retry_worthy, h200, hr]
              · obtain ⟨hf, hlb, hub, hw⟩ := sp.sleeps_sound p hp
                exact ⟨hf, by omega, by simpa using hub, hw⟩
            · intro i h1 h2
              simp only [add_sleep_attempts] at h2
              simp only [add_sleep_sleeps, List.mem_cons]
              by_cases hi : i = a
              · subst hi; exact .inl rfl
              · exact .inr (sp.sleeps_complete i (by omega) h2)
            · intro hp hout
              simp only [add_sleep_outcome] at hout
              simp only [add_sleep_error]
              exact sp.error_on_exhaust hpos hout
            · intro i h1 h2 h3 hw
              simp only [add_sleep_attempts] at h2 ⊢
              by_cases hi : i = a
              · subst hi; exact sp.att_strict hpos
              · exact sp.progress i (by omega) h2 (by omega) hw
          · have hstop : (retryable s && decide (0 < r)) = false := by
              simp [hpos]
            rw [fetch_loop_break_status url source store ho h200 hstop le ls]
            refine ⟨by simp [exit_attempts], by simp [exit_attempts], ?_, ?_, ?_, ?_, ?_⟩
            · intro _; simp [exit_attempts]
            · intro p hp; simp [exit_sleeps] at hp
            · intro i h1 h2; simp [exit_attempts] at h2; omega
            · intro _ _; simp [exit_error]
            · intro i h1 h2 h3 hw
              simp only [exit_attempts] at h2 ⊢
              omega
        · have hstop : (retryable s && decide (0 < r)) = false := by
            simp [Bool.not_eq_true] at hr
            simp [hr]
          rw [fetch_loop_break_status url source store ho h200 hstop le ls]
          refine ⟨by simp [exit_attempts], by simp [exit_attempts], ?_, ?_, ?_, ?_, ?_⟩
          · intro _; simp [exit_attempts]
          · intro p hp; simp [exit_sleeps] at hp
          · intro i h1 h2; simp [exit_attempts] at h2; omega
          · intro _ _; simp [exit_error]
          · intro i h1 h2 h3 hw
            simp only [exit_attempts] at h2 ⊢
            have hia : i = a := by omega
            subst hia
            rw [ho] at hw
            simp [retry_worthy, hr, h200] at hw
    | exn t =>
      by_cases hre : retryable_exception t = true
      · by_cases hpos : 0 < r
        · rw [fetch_loop_retry_exn url source store ho hre hpos le ls]
          have sp := ih (a + 1) (some t) ls
          refine ⟨?_, ?_, ?_, ?_, ?_, ?_, ?_⟩
          · simp only [add_sleep_attempts]
            exact le_trans (Nat.le_succ a) sp.att_lb
          · simp only [add_sleep_attempts]
            have := sp.att_ub; omega
          · intro _
            simp only [add_sleep_attempts]
            have := sp.att_lb; omega
          · intro p hp
            simp only [add_sleep_sleeps, List.mem_cons] at hp
            rcases hp with rfl | hp
            · refine ⟨rfl, le_refl a, ?_, ?_⟩
              · simp only [add_sleep_attempts]
                exact sp.att_strict hpos
              · rw [ho]; simp [retry_worthy, hre]
            · obtain ⟨hf, hlb, hub, hw⟩ := sp.sleeps_sound p hp
              exact ⟨hf, by omega, by simpa using hub, hw⟩
          · intro i h1 h2
            simp only [add_sleep_attempts] at h2
            simp only [add_sleep_sleeps, List.mem_cons]
            by_cases hi : i = a
            · subst hi; exact .inl rfl
            · exact .inr (sp.sleeps_complete i (by omega) h2)
          · intro hp hout
            simp only [add_sleep_outcome] at hout
            simp only [add_sleep_error]
            exact sp.error_on_exhaust hpos hout
          · intro i h1 h2 h3 hw
            simp only [add_sleep_attempts] at h2 ⊢
            by_cases hi : i = a
            · subst hi; exact sp.att_strict hpos
            · exact sp.progress i (by omega) h2 (by omega) hw
        · have hstop : (decide (0 < r) && retryable_exception t) = false := by
            simp [hpos]
          rw [fetch_loop_break_exn url source store ho hstop le ls]
          refine ⟨by simp [exit_attempts], by simp [exit_attempts], ?_, ?_, ?_, ?_, ?_⟩
          · intro _; simp [exit_attempts]
          · intro p hp; simp [exit_sleeps] at hp
          · intro i h1 h2; simp [exit_attempts] at h2; omega
          · intro _ _; simp [exit_error]
          · intro i h1 h2 h3 hw
            simp only [exit_attempts] at h2 ⊢
            omega
      · have hstop : (decide (0 < r) && retryable_exception t) = false := by
          simp [Bool.not_eq_true] at hre
          simp [hre]
        rw [fetch_loop_break_exn url source store ho hstop le ls]
        refine ⟨by simp [exit_attempts], by simp [exit_attempts], ?_, ?_, ?_, ?_, ?_⟩
        · intro _; simp [exit_attempts]
        · intro p hp; simp [exit_sleeps] at hp
        · intro i h1 h2; simp [exit_attempts] at h2; omega
        · intro _ _; simp [exit_error]
        · intro i h1 h2 h3 hw
          simp only [exit_attempts] at h2 ⊢
          have hia : i = a := by omega
          subst hia
          rw [ho] at hw
          simp [retry_worthy, hre] at hw

/-- The fallback path always produces one of the two documented outcomes: a
`from_cache` success carrying the previous error, or the failure outcome
with empty body and the last observed status. -/
theorem fetch_fallback_spec (env : FetchEnv) (cfg : FetchConfig) (url source : String)
    (store : CacheStore) (sleeps : List (Nat × ℚ)) (att : Nat) (le : Option String)
    (ls : Nat) :
    ((fetch_fallback env cfg url source store sleeps att le ls).result.ok = true ∧
     (fetch_fallback env cfg url source store sleeps att le ls).result.from_cache = true ∧
     (fetch_fallback env cfg url source store sleeps att le ls).result.error = le) ∨
    ((fetch_fallback env cfg url source store sleeps att le ls).result.ok = false ∧
     (fetch_fallback env cfg url source store sleeps att le ls).result.text = "" ∧
     (fetch_fallback env cfg url source store sleeps att le ls).result.status_code = ls ∧
     (fetch_fallback env cfg url source store sleeps att le ls).result.error = le ∧
     (fetch_fallback env cfg url source store sleeps att le ls).result.from_cache = false) := by
  unfold fetch_fallback
  cases (if env.cache_read_raises then none
    else get_source_cache store url cfg.cache_ttl_hours env.now) with
  | none => exact .inr ⟨rfl, rfl, rfl, rfl, rfl⟩
  | some e =>
    dsimp only
    by_cases hb : e.body ≠ ""
    · rw [if_pos hb]
      exact .inl ⟨rfl, rfl, rfl⟩
    · rw [if_neg hb]
      exact .inr ⟨rfl, rfl, rfl, rfl, rfl⟩

/-- Bookkeeping fields of the fallback path. -/
theorem fetch_fallback_book (env : FetchEnv) (cfg : FetchConfig) (url source : String)
    (store : CacheStore) (sleeps : List (Nat × ℚ)) (att : Nat) (le : Option String)
    (ls : Nat) :
    (fetch_fallback env cfg url source store sleeps att le ls).sleeps = sleeps ∧
    (fetch_fallback env cfg url source store sleeps att le ls).attempts_used = att ∧
    (fetch_fallback env cfg url source store sleeps att le ls).last_error = le ∧
    (fetch_fallback env cfg url source store sleeps att le ls).last_status = ls := by
  unfold fetch_fallback
  cases (if env.cache_read_raises then none
    else get_source_cache store url cfg.cache_ttl_hours env.now) with
  | none => exact ⟨rfl, rfl, rfl, rfl⟩
  | some e =>
    dsimp only
    by_cases hb : e.body ≠ ""
    · rw [if_pos hb]; exact ⟨rfl, rfl, rfl, rfl⟩
    · rw [if_neg hb]; exact ⟨rfl, rfl, rfl, rfl⟩

/-- `fetch_url` returns the live result when the loop exited with one. -/
theorem fetch_url_success {env : FetchEnv} {cfg : FetchConfig} {url : String}
    {skey : Option String} {store : CacheStore} {res : HttpResult}
    (h : exit_outcome (fetch_loop env url (skey.getD url) store
      (max 1 cfg.max_retries) 0 none 0) = some res) :
    (fetch_url env cfg url skey store).result = res := by
  unfold fetch_url
  cases hE : fetch_loop env url (skey.getD url) store (max 1 cfg.max_retries) 0 none 0 with
  | success res' store2 health sleeps att le ls =>
    rw [hE] at h
    simp only [exit_outcome, Option.some.injEq] at h
    simp [h]
  | exhausted sleeps att le ls =>
    rw [hE] at h
    simp [exit_outcome] at h

/-- `fetch_url` falls through to `fetch_fallback` when the loop exhausted. -/
theorem fetch_url_exhausted {env : FetchEnv} {cfg : FetchConfig} {url : String}
    {skey : Option String} {store : CacheStore}
    (h : exit_outcome (fetch_loop env url (skey.getD url) store
      (max 1 cfg.max_retries) 0 none 0) = none) :
    fetch_url env cfg url skey store =
      fetch_fallback env cfg url (skey.getD url) store
        (exit_sleeps (fetch_loop env url (skey.getD url) store (max 1 cfg.max_retries) 0 none 0))
        (exit_attempts (fetch_loop env url (skey.getD url) store (max 1 cfg.max_retries) 0 none 0))
        (exit_error (fetch_loop env url (skey.getD url) store (max 1 cfg.max_retries) 0 none 0))
        (exit_status (fetch_loop env url (skey.getD url) store (max 1 cfg.max_retries) 0 none 0)) := by
  unfold fetch_url
  cases hE : fetch_loop env url (skey.getD url) store (max 1 cfg.max_retries) 0 none 0 with
  | success res' store2 health sleeps att le ls =>
    rw [hE] at h
    simp [exit_outcome] at h
  | exhausted sleeps att le ls =>
    simp [exit_sleeps, exit_attempts, exit_error, exit_status]

/-- Bookkeeping fields of `fetch_url` equal those of the loop exit. -/
theorem fetch_url_book (env : FetchEnv) (cfg : FetchConfig) (url : String)
    (skey : Option String) (store : CacheStore) :
    (fetch_url env cfg url skey store).sleeps =
      exit_sleeps (fetch_loop env url (skey.getD url) store (max 1 cfg.max_retries) 0 none 0) ∧
    (fetch_url env cfg url skey store).attempts_used =
      exit_attempts (fetch_loop env url (skey.getD url) store (max 1 cfg.max_retries) 0 none 0) ∧
    (fetch_url env cfg url skey store).last_error =
      exit_error (fetch_loop env url (skey.getD url) store (max 1 cfg.max_retries) 0 none 0) ∧
    (fetch_url env cfg url skey store).last_status =
      exit_status (fetch_loop env url (skey.getD url) store (max 1 cfg.max_retries) 0 none 0) := by
  unfold fetch_url
  cases hE : fetch_loop env url (skey.getD url) store (max 1 cfg.max_retries) 0 none 0 with
  | success res' store2 health sleeps att le ls =>
    simp [exit_sleeps, exit_attempts, exit_error, exit_status]
  | exhausted sleeps att le ls =>
    have := fetch_fallback_book env cfg url (skey.getD url) store sleeps att le ls
    simp [exit_sleeps, exit_attempts, exit_error, exit_status, this.1, this.2.1, this.2.2.1,
      this.2.2.2]

/-- A loop that returned a live result got it from a 200 response: the
result fields are fixed and, unless the upsert raised, the cache gained
exactly the entry for that body. -/
theorem fetch_loop_success_res (env : FetchEnv) (url source : String) (store : CacheStore) :
    ∀ (r a : Nat) (le : Option String) (ls : Nat) (res : HttpResult) (st : CacheStore)
      (hl : List (String × Bool)) (sl : List (Nat × ℚ)) (att : Nat)
      (le2 : Option String) (ls2 : Nat),
      fetch_loop env url source store r a le ls = .success res st hl sl att le2 ls2 →
      res.ok = true ∧ res.from_cache = false ∧ res.status_code = 200 ∧ res.url = url ∧
      res.error = none ∧
      st = (if env.upsert_raises then store
        else upsert_source_cache store url ⟨200, res.text, env.now, source⟩) := by
  intro r
  induction r with
  | zero =>
    intro a le ls res st hl sl att le2 ls2 h
    rw [fetch_loop_zero] at h
    exact absurd h (by simp)
  | succ r ih =>
    intro a le ls res st hl sl att le2 ls2 h
    cases ho : env.attempt_outcome a with
    | response s body =>
      by_cases h200 : s = 200
      · subst h200
        rw [fetch_loop_200 url source store ho r le ls] at h
        obtain ⟨h1, h2⟩ := LoopExit.success.inj h
        subst h1
        exact ⟨rfl, rfl, rfl, rfl, rfl, h2.1.symm⟩
      · by_cases hr : retryable s = true
        · by_cases hpos : 0 < r
          · rw [fetch_loop_retry_status url source store ho h200 hr hpos le ls] at h
            cases hE : fetch_loop env url source store r (a + 1) le s with
            | success res' st' hl' sl' att' le' ls' =>
              rw [hE] at h
              simp only [add_sleep] at h
              obtain ⟨h1, h2⟩ := LoopExit.success.inj h
              subst h1
              have := ih (a + 1) le s res' st' hl' sl' att' le' ls' hE
              exact ⟨this.1, this.2.1, this.2.2.1, this.2.2.2.1, this.2.2.2.2.1,
                h2.1 ▸ this.2.2.2.2.2⟩
            | exhausted sl' att' le' ls' =>
              rw [hE] at h
              simp [add_sleep] at h
          · have hstop : (retryable s && decide (0 < r)) = false := by simp [hpos]
            rw [fetch_loop_break_status url source store ho h200 hstop le ls] at h
            exact absurd h (by simp)
        · have hstop : (retryable s && decide (0 < r)) = false := by
            simp [Bool.not_eq_true] at hr
            simp [hr]
          rw [fetch_loop_break_status url source store ho h200 hstop le ls] at h
          exact absurd h (by simp)
    | exn t =>
      by_cases hre : retryable_exception t = true
      · by_cases hpos : 0 < r
        · rw [fetch_loop_retry_exn url source store ho hre hpos le ls] at h
          cases hE : fetch_loop env url source store r (a + 1) (some t) ls with
          | success res' st' hl' sl' att' le' ls' =>
            rw [hE] at h
            simp only [add_sleep] at h
            obtain ⟨h1, h2⟩ := LoopExit.success.inj h
            subst h1
            have := ih (a + 1) (some t) ls res' st' hl' sl' att' le' ls' hE
            exact ⟨this.1, this.2.1, this.2.2.1, this.2.2.2.1, this.2.2.2.2.1,
              h2.1 ▸ this.2.2.2.2.2⟩
          | exhausted sl' att' le' ls' =>
            rw [hE] at h
            simp [add_sleep] at h
        · have hstop : (decide (0 < r) && retryable_exception t) = false := by simp [hpos]
          rw [fetch_loop_break_exn url source store ho hstop le ls] at h
          exact absurd h (by simp)
      · have hstop : (decide (0 < r) && retryable_exception t) = false := by
          simp [Bool.not_eq_true] at hre
          simp [hre]
        rw [fetch_loop_break_exn url source store ho hstop le ls] at h
        exact absurd h (by simp)

/-- If no attempt ever yields a 200, the loop never exits with a live
result. -/
theorem fetch_loop_no_success (env : FetchEnv) (url source : String) (store : CacheStore)
    (hno : ∀ i, is_success_outcome (env.attempt_outcome i) = false) :
    ∀ (r a : Nat) (le : Option String) (ls : Nat),
      exit_outcome (fetch_loop env url source store r a le ls) = none := by
  intro r
  induction r with
  | zero =>
    intro a le ls
    rw [fetch_loop_zero]
    rfl
  | succ r ih =>
    intro a le ls
    cases ho : env.attempt_outcome a with
    | response s body =>
      have h200 : ¬ s = 200 := by
        intro hc
        have := hno a
        rw [ho, hc] at this
        simp [is_success_outcome] at this
      by_cases hcont : (retryable s && decide (0 < r)) = true
      · obtain ⟨hr, hpos⟩ : retryable s = true ∧ 0 < r := by simpa using hcont
        rw [fetch_loop_retry_status url source store ho h200 hr hpos le ls]
        simp only [add_sleep_outcome]
        exact ih (a + 1) le s
      · rw [fetch_loop_break_status url source store ho h200
          (Bool.not_eq_true _ ▸ hcont) le ls]
        rfl
    | exn t =>
      by_cases hcont : (decide (0 < r) && retryable_exception t) = true
      · obtain ⟨hpos, hre⟩ : 0 < r ∧ retryable_exception t = true := by simpa using hcont
        rw [fetch_loop_retry_exn url source store ho hre hpos le ls]
        simp only [add_sleep_outcome]
        exact ih (a + 1) (some t) ls
      · rw [fetch_loop_break_exn url source store ho (Bool.not_eq_true _ ▸ hcont) le ls]
        rfl

/-- `fetch_url` on a loop that exited with a live result. -/
theorem fetch_url_of_loop_success {env : FetchEnv} {cfg : FetchConfig} {url : String}
    {skey : Option String} {store : CacheStore} {res : HttpResult} {st : CacheStore}
    {hl : List (String × Bool)} {sl : List (Nat × ℚ)} {att : Nat}
    {le2 : Option String} {ls2 : Nat}
    (hE : fetch_loop env url (skey.getD url) store (max 1 cfg.max_retries) 0 none 0 =
      .success res st hl sl att le2 ls2) :
    fetch_url env cfg url skey store = ⟨res, st, hl, sl, att, le2, ls2⟩ := by
  unfold fetch_url
  rw [hE]

@[simp] theorem set_flags_attempt (env : FetchEnv) (f1 f2 f3 : Bool) :
    (set_flags env f1 f2 f3).attempt_outcome = env.attempt_outcome := rfl

@[simp] theorem set_flags_jitter (env : FetchEnv) (f1 f2 f3 : Bool) :
    (set_flags env f1 f2 f3).jitter = env.jitter := rfl

/-- The attempt loop's control flow, live result, backoff log and
bookkeeping do not depend on the keyed-store failure flags. -/
theorem fetch_loop_flags (env : FetchEnv) (f1 f2 f3 : Bool) (url source : String)
    (store : CacheStore) :
    ∀ (r a : Nat) (le : Option String) (ls : Nat),
      exit_outcome (fetch_loop (set_flags env f1 f2 f3) url source store r a le ls) =
        exit_outcome (fetch_loop env url source store r a le ls) ∧
      exit_sleeps (fetch_loop (set_flags env f1 f2 f3) url source store r a le ls) =
        exit_sleeps (fetch_loop env url source store r a le ls) ∧
      exit_attempts (fetch_loop (set_flags env f1 f2 f3) url source store r a le ls) =
        exit_attempts (fetch_loop env url source store r a le ls) ∧
      exit_error (fetch_loop (set_flags env f1 f2 f3) url source store r a le ls) =
        exit_error (fetch_loop env url source store r a le ls) ∧
      exit_status (fetch_loop (set_flags env f1 f2 f3) url source store r a le ls) =
        exit_status (fetch_loop env url source store r a le ls) := by
  intro r
  induction r with
  | zero =>
    intro a le ls
    rw [fetch_loop_zero, fetch_loop_zero]
    exact ⟨rfl, rfl, rfl, rfl, rfl⟩
  | succ r ih =>
    intro a le ls
    cases ho : env.attempt_outcome a with
    | response s body =>
      have ho' : (set_flags env f1 f2 f3).attempt_outcome a = .response s body := ho
      by_cases h200 : s = 200
      · subst h200
        rw [fetch_loop_200 url source store ho r le ls,
          fetch_loop_200 url source store ho' r le ls]
        exact ⟨rfl, rfl, rfl, rfl, rfl⟩
      · by_cases hr : retryable s = true
        · by_cases hpos : 0 < r
          · rw [fetch_loop_retry_status url source store ho h200 hr hpos le ls,
              fetch_loop_retry_status url source store ho' h200 hr hpos le ls]
            have := ih (a + 1) le s
            simp only [add_sleep_outcome, add_sleep_sleeps, add_sleep_attempts,
              add_sleep_error, add_sleep_status]
            exact ⟨this.1, by rw [set_flags_jitter, this.2.1], this.2.2.1,
              this.2.2.2.1, this.2.2.2.2⟩
          · have hstop : (retryable s && decide (0 < r)) = false := by simp [hpos]
            rw [fetch_loop_break_status url source store ho h200 hstop le ls,
              fetch_loop_break_status url source store ho' h200 hstop le ls]
            exact ⟨rfl, rfl, rfl, rfl, rfl⟩
        · have hstop : (retryable s && decide (0 < r)) = false := by
            simp [Bool.not_eq_true] at hr
            simp [hr]
          rw [fetch_loop_break_status url source store ho h200 hstop le ls,
            fetch_loop_break_status url source store ho' h200 hstop le ls]
          exact ⟨rfl, rfl, rfl, rfl, rfl⟩
    | exn t =>
      have ho' : (set_flags env f1 f2 f3).attempt_outcome a = .exn t := ho
      by_cases hre : retryable_exception t = true
      · by_cases hpos : 0 < r
        · rw [fetch_loop_retry_exn url source store ho hre hpos le ls,
            fetch_loop_retry_exn url source store ho' hre hpos le ls]
          have := ih (a + 1) (some t) ls
          simp only [add_sleep_outcome, add_sleep_sleeps, add_sleep_attempts,
            add_sleep_error, add_sleep_status]
          exact ⟨this.1, by rw [set_flags_jitter, this.2.1], this.2.2.1,
            this.2.2.2.1, this.2.2.2.2⟩
        · have hstop : (decide (0 < r) && retryable_exception t) = false := by simp [hpos]
          rw [fetch_loop_break_exn url source store ho hstop le ls,
            fetch_loop_break_exn url source store ho' hstop le ls]
          exact ⟨rfl, rfl, rfl, rfl, rfl⟩
      · have hstop : (decide (0 < r) && retryable_exception t) = false := by
          simp [Bool.not_eq_true] at hre
          simp [hre]
        rw [fetch_loop_break_exn url source store ho hstop le ls,
          fetch_loop_break_exn url source store ho' hstop le ls]
        exact ⟨rfl, rfl, rfl, rfl, rfl⟩

/-- `find?` over the map performed by the upsert's update branch. -/
theorem find_map_upsert (url : String) (e : CacheEntry) :
    ∀ store : CacheStore,
      (store.map (fun p => if p.1 == url then (url, e) else p)).find?
          (fun p => p.1 == url) =
        if store.any (fun p => p.1 == url) then some (url, e) else none := by
  intro store
  induction store with
  | nil => rfl
  | cons p rest ih =>
    by_cases hp : (p.1 == url) = true
    · simp [List.find?, hp]
    · have hmap : (p :: rest).map (fun q => if q.1 == url then (url, e) else q) =
          p :: rest.map (fun q => if q.1 == url then (url, e) else q) := by
        rw [List.map_cons, if_neg hp]
      rw [hmap, @List.find?_cons_of_neg _ (fun q => q.1 == url) p
        (rest.map (fun q => if q.1 == url then (url, e) else q)) hp, ih]
      have hany : ((p :: rest).any fun q => q.1 == url) = (rest.any fun q => q.1 == url) := by
        simp [List.any_cons, hp]
      rw [hany]

/-- A cache upsert leaves the table with exactly the new row under its URL. -/
theorem upsert_find (store : CacheStore) (url : String) (e : CacheEntry) :
    (upsert_source_cache store url e).find? (fun p => p.1 == url) = some (url, e) := by
  unfold upsert_source_cache
  by_cases h : store.any (fun p => p.1 == url) = true
  · rw [if_pos h, find_map_upsert, if_pos h]
  · rw [if_neg h]
    simp [List.find?]

/-! ### C4, C5, C10: claims about the fetch layer -/

/-- C4: `fetch_url` always returns an `HttpResult` — a success, or a failure
outcome with empty body and the error attached, never an escaping
exception; it executes between 1 and `max(1, HTTP_MAX_RETRIES)` attempts;
every backoff sleep is `min(6, 0.5·2^attempt) + jitter(attempt)` and occurs
exactly at the attempts that were followed by another one, all of which were
retry-worthy (HTTP 429/5xx or a retryable exception — so a DNS/route
failure, which is not retry-worthy, stops the loop with no further
attempt); and a retry-worthy attempt with retries remaining is always
followed by a next attempt. -/
theorem C4_fetch_retry_backoff (env : FetchEnv) (cfg : FetchConfig) (url : String)
    (skey : Option String) (store : CacheStore) :
    ((fetch_url env cfg url skey store).result.ok = true ∨
      ((fetch_url env cfg url skey store).result.ok = false ∧
       (fetch_url env cfg url skey store).result.text = "" ∧
       ((fetch_url env cfg url skey store).result.error).isSome = true)) ∧
    1 ≤ (fetch_url env cfg url skey store).attempts_used ∧
    (fetch_url env cfg url skey store).attempts_used ≤ max 1 cfg.max_retries ∧
    (∀ p ∈ (fetch_url env cfg url skey store).sleeps,
      p.2 = sleep_backoff_base p.1 + env.jitter p.1 ∧
      p.1 + 1 < (fetch_url env cfg url skey store).attempts_used ∧
      retry_worthy (env.attempt_outcome p.1) = true) ∧
    (∀ i, i + 1 < (fetch_url env cfg url skey store).attempts_used →
      (i, sleep_backoff_base i + env.jitter i) ∈ (fetch_url env cfg url skey store).sleeps) ∧
    (∀ i, i < (fetch_url env cfg url skey store).attempts_used →
      i + 1 < max 1 cfg.max_retries → retry_worthy (env.attempt_outcome i) = true →
      i + 1 < (fetch_url env cfg url skey store).attempts_used) := by
  have sp := fetch_loop_spec env url (skey.getD url) store (max 1 cfg.max_retries) 0 none 0
  obtain ⟨hsl, hat, herr, hstat⟩ := fetch_url_book env cfg url skey store
  have hretr : 0 < max 1 cfg.max_retries :=
    Nat.lt_of_lt_of_le Nat.one_pos (Nat.le_max_left 1 _)
  refine ⟨?_, ?_, ?_, ?_, ?_, ?_⟩
  · cases hE : fetch_loop env url (skey.getD url) store (max 1 cfg.max_retries) 0 none 0 with
    | success res st hl sl att le2 ls2 =>
      have hres := fetch_loop_success_res env url (skey.getD url) store
        (max 1 cfg.max_retries) 0 none 0 res st hl sl att le2 ls2 hE
      rw [fetch_url_of_loop_success hE]
      exact .inl hres.1
    | exhausted sl att le2 ls2 =>
      have hO : exit_outcome (fetch_loop env url (skey.getD url) store
          (max 1 cfg.max_retries) 0 none 0) = none := by rw [hE]; rfl
      rw [fetch_url_exhausted hO]
      rcases fetch_fallback_spec env cfg url (skey.getD url) store _ _ _ _ with h | h
      · exact .inl h.1
      · refine .inr ⟨h.1, h.2.1, ?_⟩
        rw [h.2.2.2.1]
        exact sp.error_on_exhaust hretr hO
  · rw [hat]
    have := sp.att_strict hretr
    omega
  · rw [hat]
    have := sp.att_ub
    omega
  · intro p hp
    rw [hsl] at hp
    obtain ⟨hf, _, hub, hw⟩ := sp.sleeps_sound p hp
    exact ⟨hf, by rw [hat]; exact hub, hw⟩
  · intro i hi
    rw [hat] at hi
    rw [hsl]
    exact sp.sleeps_complete i (Nat.zero_le i) hi
  · intro i h1 h2 hw
    rw [hat] at h1 ⊢
    exact sp.progress i (Nat.zero_le i) h1 (by omega) hw

/-- Witness for `C4_fetch_retry_backoff`: a retryable 500 followed by a
terminal 404 performs exactly the one documented backoff. -/
theorem C4_fetch_retry_backoff_witness :
    (0, sleep_backoff_base 0 + fetch_env_mixed.jitter 0) ∈
      (fetch_url fetch_env_mixed fetch_cfg_2 "u" none []).sleeps ∧
    1 ≤ (fetch_url fetch_env_mixed fetch_cfg_2 "u" none []).attempts_used :=
  ⟨(C4_fetch_retry_backoff fetch_env_mixed fetch_cfg_2 "u" none []).2.2.2.2.1 0
      (by with_unfolding_all decide),
   (C4_fetch_retry_backoff fetch_env_mixed fetch_cfg_2 "u" none []).2.1⟩

/-- C10: failures of the persistent keyed store never alter a live success
(the outcome is the same under any combination of upsert / health / cache
read exceptions), and under any such failures the function still returns
one of the documented outcomes — a live success, a cache fallback, or the
empty-bodied failure outcome — rather than propagating the exception. -/
theorem C10_store_failures_swallowed (env : FetchEnv) (cfg : FetchConfig) (url : String)
    (skey : Option String) (store : CacheStore) (f1 f2 f3 : Bool) :
    (((fetch_url env cfg url skey store).result.ok = true ∧
      (fetch_url env cfg url skey store).result.from_cache = false) →
      (fetch_url (set_flags env f1 f2 f3) cfg url skey store).result =
        (fetch_url env cfg url skey store).result) ∧
    (((fetch_url (set_flags env f1 f2 f3) cfg url skey store).result.ok = true ∧
        (fetch_url (set_flags env f1 f2 f3) cfg url skey store).result.from_cache = false) ∨
      (fetch_url (set_flags env f1 f2 f3) cfg url skey store).result.from_cache = true ∨
      ((fetch_url (set_flags env f1 f2 f3) cfg url skey store).result.ok = false ∧
        (fetch_url (set_flags env f1 f2 f3) cfg url skey store).result.text = "")) := by
  have hfl := fetch_loop_flags env f1 f2 f3 url (skey.getD url) store
  constructor
  · rintro ⟨hok, hfc⟩
    cases hE : fetch_loop env url (skey.getD url) store (max 1 cfg.max_retries) 0 none 0 with
    | success res st hl sl att le2 ls2 =>
      rw [fetch_url_of_loop_success hE]
      have hO' : exit_outcome (fetch_loop (set_flags env f1 f2 f3) url (skey.getD url) store
          (max 1 cfg.max_retries) 0 none 0) = some res := by
        rw [(hfl (max 1 cfg.max_retries) 0 none 0).1, hE]
        rfl
      rw [fetch_url_success hO']
    | exhausted sl att le2 ls2 =>
      exfalso
      have hO : exit_outcome (fetch_loop env url (skey.getD url) store
          (max 1 cfg.max_retries) 0 none 0) = none := by rw [hE]; rfl
      rw [fetch_url_exhausted hO] at hok hfc
      rcases fetch_fallback_spec env cfg url (skey.getD url) store _ _ _ _ with h | h
      · rw [h.2.1] at hfc
        exact Bool.noConfusion hfc
      · rw [h.1] at hok
        exact Bool.noConfusion hok
  · cases hE' : fetch_loop (set_flags env f1 f2 f3) url (skey.getD url) store
        (max 1 cfg.max_retries) 0 none 0 with
    | success res st hl sl att le2 ls2 =>
      rw [fetch_url_of_loop_success hE']
      have hres := fetch_loop_success_res (set_flags env f1 f2 f3) url (skey.getD url) store
        (max 1 cfg.max_retries) 0 none 0 res st hl sl att le2 ls2 hE'
      exact .inl ⟨hres.1, hres.2.1⟩
    | exhausted sl att le2 ls2 =>
      have hO : exit_outcome (fetch_loop (set_flags env f1 f2 f3) url (skey.getD url) store
          (max 1 cfg.max_retries) 0 none 0) = none := by rw [hE']; rfl
      rw [fetch_url_exhausted hO]
      rcases fetch_fallback_spec (set_flags env f1 f2 f3) cfg url (skey.getD url) store
        _ _ _ _ with h | h
      · exact .inr (.inl h.2.1)
      · exact .inr (.inr ⟨h.1, h.2.1⟩)

/-- Witness for `C10_store_failures_swallowed`: a live 200 fetch returns the
same result when every keyed-store operation raises. -/
theorem C10_store_failures_swallowed_witness :
    (fetch_url (set_flags fetch_env_200_hello true true true) fetch_cfg_2 "u" none []).result =
      (fetch_url fetch_env_200_hello fetch_cfg_2 "u" none []).result :=
  (C10_store_failures_swallowed fetch_env_200_hello fetch_cfg_2 "u" none [] true true true).1
    (by with_unfolding_all decide)

set_option maxRecDepth 8000 in
/-- C5 counterexample: a 200 response with an **empty** body is upserted
into the cache, but `if cached and cached.get("body")` refuses an empty
cached body, so the next call — all of whose attempts fail with HTTP 500,
within the TTL — does NOT serve the stored entry: it returns the failure
outcome, not the claimed cache round-trip. -/
theorem C5_counterexample :
    (fetch_url fetch_env_200_empty fetch_cfg_2 "u" none []).result.ok = true ∧
    (fetch_url fetch_env_200_empty fetch_cfg_2 "u" none []).result.from_cache = false ∧
    get_source_cache (fetch_url fetch_env_200_empty fetch_cfg_2 "u" none []).store "u"
      fetch_cfg_2.cache_ttl_hours fetch_env_500.now =
      some ⟨200, "", 0, "u"⟩ ∧
    (fetch_url fetch_env_500 fetch_cfg_2 "u" none
        (fetch_url fetch_env_200_empty fetch_cfg_2 "u" none []).store).result =
      ⟨false, 500, "", "u", false, some "HTTP 500"⟩ := by
  with_unfolding_all decide

/-- C5 (amended): the cache round-trip holds for non-empty bodies — a live
success with a **non-empty** body (and a working upsert) stores the body,
and a later call on that store whose every attempt fails, with a working
cache read and within the TTL, returns it as a `from_cache` success with
the second call's `last_error` attached; and when the cache holds no
fresh entry for the URL, an all-failing call returns the failure outcome
with empty body and the last observed status. -/
theorem C5_cache_round_trip :
    (∀ (env1 env2 : FetchEnv) (cfg : FetchConfig) (url : String) (skey : Option String)
        (store0 : CacheStore),
      (fetch_url env1 cfg url skey store0).result.ok = true →
      (fetch_url env1 cfg url skey store0).result.from_cache = false →
      env1.upsert_raises = false →
      (fetch_url env1 cfg url skey store0).result.text ≠ "" →
      (∀ i, is_success_outcome (env2.attempt_outcome i) = false) →
      env2.cache_read_raises = false →
      env2.now - cfg.cache_ttl_hours ≤ env1.now →
      (fetch_url env2 cfg url skey (fetch_url env1 cfg url skey store0).store).result.ok
          = true ∧
      (fetch_url env2 cfg url skey
          (fetch_url env1 cfg url skey store0).store).result.from_cache = true ∧
      (fetch_url env2 cfg url skey (fetch_url env1 cfg url skey store0).store).result.text =
        (fetch_url env1 cfg url skey store0).result.text ∧
      (fetch_url env2 cfg url skey (fetch_url env1 cfg url skey store0).store).result.error =
        (fetch_url env2 cfg url skey (fetch_url env1 cfg url skey store0).store).last_error ∧
      ((fetch_url env2 cfg url skey
          (fetch_url env1 cfg url skey store0).store).result.error).isSome = true) ∧
    (∀ (env : FetchEnv) (cfg : FetchConfig) (url : String) (skey : Option String)
        (store : CacheStore),
      (∀ i, is_success_outcome (env.attempt_outcome i) = false) →
      (if env.cache_read_raises then none
        else get_source_cache store url cfg.cache_ttl_hours env.now) = none →
      (fetch_url env cfg url skey store).result.ok = false ∧
      (fetch_url env cfg url skey store).result.text = "" ∧
      (fetch_url env cfg url skey store).result.status_code =
        (fetch_url env cfg url skey store).last_status) := by
  constructor
  · intro env1 env2 cfg url skey store0 hok hfc hup hbody hno hread hage
    cases hE : fetch_loop env1 url (skey.getD url) store0 (max 1 cfg.max_retries) 0 none 0 with
    | exhausted sl att le2 ls2 =>
      exfalso
      have hO : exit_outcome (fetch_loop env1 url (skey.getD url) store0
          (max 1 cfg.max_retries) 0 none 0) = none := by rw [hE]; rfl
      rw [fetch_url_exhausted hO] at hok hfc
      rcases fetch_fallback_spec env1 cfg url (skey.getD url) store0 _ _ _ _ with h | h
      · rw [h.2.1] at hfc
        exact Bool.noConfusion hfc
      · rw [h.1] at hok
        exact Bool.noConfusion hok
    | success res st hl sl att le2 ls2 =>
      have hres := fetch_loop_success_res env1 url (skey.getD url) store0
        (max 1 cfg.max_retries) 0 none 0 res st hl sl att le2 ls2 hE
      have hrun1 : fetch_url env1 cfg url skey store0 = ⟨res, st, hl, sl, att, le2, ls2⟩ :=
        fetch_url_of_loop_success hE
      rw [hrun1] at hbody ⊢
      have hbody2 : res.text ≠ "" := hbody
      have hst : st = upsert_source_cache store0 url ⟨200, res.text, env1.now, skey.getD url⟩ := by
        have h6 := hres.2.2.2.2.2
        rwa [hup, if_neg Bool.false_ne_true] at h6
      have hO2 : exit_outcome (fetch_loop env2 url (skey.getD url) st
          (max 1 cfg.max_retries) 0 none 0) = none :=
        fetch_loop_no_success env2 url (skey.getD url) st hno _ 0 none 0
      have sp2 := fetch_loop_spec env2 url (skey.getD url) st (max 1 cfg.max_retries) 0 none 0
      have hretr : 0 < max 1 cfg.max_retries :=
        Nat.lt_of_lt_of_le Nat.one_pos (Nat.le_max_left 1 _)
      rw [fetch_url_exhausted hO2]
      have hcache : get_source_cache st url cfg.cache_ttl_hours env2.now =
          some ⟨200, res.text, env1.now, skey.getD url⟩ := by
        unfold get_source_cache
        rw [hst, upsert_find]
        dsimp only
        rw [if_pos hage]
      have hscrut : (if env2.cache_read_raises then none
          else get_source_cache st url cfg.cache_ttl_hours env2.now) =
          some ⟨200, res.text, env1.now, skey.getD url⟩ := by
        rw [hread]
        simpa using hcache
      unfold fetch_fallback
      rw [hscrut]
      dsimp only
      rw [if_pos (show (⟨200, res.text, env1.now, skey.getD url⟩ : CacheEntry).body ≠ ""
        from hbody2)]
      exact ⟨rfl, rfl, rfl, rfl, sp2.error_on_exhaust hretr hO2⟩
  · intro env cfg url skey store hno hnone
    have hO : exit_outcome (fetch_loop env url (skey.getD url) store
        (max 1 cfg.max_retries) 0 none 0) = none :=
      fetch_loop_no_success env url (skey.getD url) store hno _ 0 none 0
    rw [fetch_url_exhausted hO]
    unfold fetch_fallback
    rw [hnone]
    exact ⟨rfl, rfl, rfl⟩

/-- Witness for `C5_cache_round_trip`: a 200 with body `"hello"` at time 0
is served from cache by an all-500 caller one hour later. -/
theorem C5_cache_round_trip_witness :
    (fetch_url fetch_env_500 fetch_cfg_2 "u" none
        (fetch_url fetch_env_200_hello fetch_cfg_2 "u" none []).store).result.from_cache
      = true ∧
    (fetch_url fetch_env_500 fetch_cfg_2 "u" none
        (fetch_url fetch_env_200_hello fetch_cfg_2 "u" none []).store).result.text =
      (fetch_url fetch_env_200_hello fetch_cfg_2 "u" none []).result.text :=
  have h := (C5_cache_round_trip).1 fetch_env_200_hello fetch_env_500 fetch_cfg_2 "u" none []
    (by with_unfolding_all decide) (by with_unfolding_all decide) rfl
    (by with_unfolding_all decide) (fun i => rfl) rfl (by with_unfolding_all decide)
  ⟨h.2.1, h.2.2.1⟩

/-! ### C6, C9: claims about the deep-research orchestrator -/

theorem str_le_b_total : ∀ xs ys : List Char, str_le_b xs ys = true ∨ str_le_b ys xs = true := by
  intro xs
  induction xs with
  | nil => intro ys; exact .inl rfl
  | cons x xs ih =>
    intro ys
    cases ys with
    | nil => exact .inr rfl
    | cons y ys =>
      by_cases hxy : x = y
      · subst hxy
        rcases ih ys with h | h
        · exact .inl (by simp only [str_le_b, if_pos rfl]; exact h)
        · exact .inr (by simp only [str_le_b, if_pos rfl]; exact h)
      · rcases lt_trichotomy x y with h | h | h
        · exact .inl (by simp only [str_le_b]; rw [if_neg hxy]; exact decide_eq_true h)
        · exact absurd h hxy
        · exact .inr (by simp only [str_le_b]; rw [if_neg (Ne.symm hxy)]; exact decide_eq_true h)

theorem str_le_b_trans : ∀ xs ys zs : List Char, str_le_b xs ys = true →
    str_le_b ys zs = true → str_le_b xs zs = true := by
  intro xs
  induction xs with
  | nil => intro ys zs _ _; rfl
  | cons x xs ih =>
    intro ys zs h1 h2
    cases ys with
    | nil => simp [str_le_b] at h1
    | cons y ys =>
      cases zs with
      | nil => simp [str_le_b] at h2
      | cons z zs =>
        simp only [str_le_b] at h1 h2 ⊢
        by_cases hxy : x = y
        · subst hxy
          rw [if_pos rfl] at h1
          by_cases hyz : x = z
          · subst hyz
            rw [if_pos rfl] at h2 ⊢
            exact ih ys zs h1 h2
          · rw [if_neg hyz] at h2 ⊢
            exact h2
        · rw [if_neg hxy] at h1
          have hx_lt_y : x < y := of_decide_eq_true h1
          by_cases hyz : y = z
          · subst hyz
            rw [if_neg hxy]
            exact decide_eq_true hx_lt_y
          · rw [if_neg hyz] at h2
            have hy_lt_z : y < z := of_decide_eq_true h2
            have hxz : x < z := lt_trans hx_lt_y hy_lt_z
            rw [if_neg (ne_of_lt hxz)]
            exact decide_eq_true hxz

theorem str_le_b_antisymm : ∀ xs ys : List Char, str_le_b xs ys = true →
    str_le_b ys xs = true → xs = ys := by
  intro xs
  induction xs with
  | nil =>
    intro ys h1 h2
    cases ys with
    | nil => rfl
    | cons y ys => simp [str_le_b] at h2
  | cons x xs ih =>
    intro ys h1 h2
    cases ys with
    | nil => simp [str_le_b] at h1
    | cons y ys =>
      simp only [str_le_b] at h1 h2
      by_cases hxy : x = y
      · subst hxy
        rw [if_pos rfl] at h1 h2
        rw [ih ys h1 h2]
      · rw [if_neg hxy] at h1
        rw [if_neg (Ne.symm hxy)] at h2
        exact absurd (of_decide_eq_true h2) (lt_asymm (of_decide_eq_true h1))

/-- `task_id`, `name` and `objective` of a collected result always come from
the task, also for the failure placeholder. -/
theorem handle_task_id (exec : TaskSpec → Except String SubBody) (t : TaskSpec) :
    (handle_task exec t).task_id = t.task_id := by
  unfold handle_task
  cases exec t <;> rfl

/-- Two permuted lists with equal, duplicate-free key sequences are equal. -/
theorem map_key_eq_of_perm {α : Type} (key : α → List Char) :
    ∀ (l₂ l₁ : List α), l₁.Perm l₂ → l₁.map key = l₂.map key →
      (l₂.map key).Nodup → l₁ = l₂ := by
  intro l₂
  induction l₂ with
  | nil =>
    intro l₁ hp _ _
    exact hp.eq_nil
  | cons b t ih =>
    intro l₁ hp hm hnd
    cases l₁ with
    | nil =>
      have := hp.length_eq
      simp at this
    | cons a t₁ =>
      simp only [List.map_cons, List.cons.injEq] at hm
      obtain ⟨hk, hmt⟩ := hm
      simp only [List.map_cons, List.nodup_cons] at hnd
      have hab : a = b := by
        by_contra hne
        have ha : a ∈ b :: t := hp.subset (List.mem_cons_self a t₁)
        rcases List.mem_cons.mp ha with h | h
        · exact hne h
        · exact hnd.1 (List.mem_map.mpr ⟨a, h, hk⟩)
      subst hab
      rw [ih t₁ hp.cons_inv hmt hnd.2]

/-- The planned task identifiers, in their planning order. -/
theorem build_tasks_ids (nm url : String) (dof : String → String) :
    (build_tasks nm url dof).map (fun t => t.task_id) =
      ["business", "financial", "legal", "team", "technology"] := rfl

/-- The task list in planning order is already sorted by task id. -/
theorem tasks_handled_sorted (exec : TaskSpec → Except String SubBody)
    (nm url : String) (dof : String → String) :
    ((build_tasks nm url dof).map (handle_task exec)).Pairwise task_id_le := by
  have hids : ((build_tasks nm url dof).map (fun t => t.task_id)).Pairwise
      (fun x y : String => str_le_b x.toList y.toList = true) := by
    rw [build_tasks_ids]
    with_unfolding_all decide
  rw [List.pairwise_map] at hids ⊢
  refine hids.imp ?_
  intro a b h
  show str_le_b (handle_task exec a).task_id.toList (handle_task exec b).task_id.toList = true
  rw [handle_task_id, handle_task_id]
  exact h

/-- The five task identifiers are pairwise distinct, also after collection. -/
theorem tasks_handled_keys_nodup (exec : TaskSpec → Except String SubBody)
    (nm url : String) (dof : String → String) :
    (((build_tasks nm url dof).map (handle_task exec)).map
      (fun r => r.task_id.toList)).Nodup := by
  have he : (fun r : SubReport => r.task_id.toList) ∘ handle_task exec =
      fun t : TaskSpec => t.task_id.toList := by
    funext t
    show (handle_task exec t).task_id.toList = t.task_id.toList
    rw [handle_task_id]
  rw [List.map_map, he]
  have hc : (build_tasks nm url dof).map (fun t => t.task_id.toList) =
      ["business".toList, "financial".toList, "legal".toList, "team".toList,
       "technology".toList] := rfl
  rw [hc]
  with_unfolding_all decide

/-- Canonical form of the orchestrator's output: whatever the completion
order, the sorted sub-report list is the planning-order task list mapped
through result collection. -/
theorem research_sub_reports (domain_of : String → String)
    (exec : TaskSpec → Except String SubBody)
    (sched : List TaskSpec → List TaskSpec) (hperm : ∀ l, (sched l).Perm l)
    (nm url : String) :
    (run_company_deep_research domain_of exec sched nm url).sub_reports =
      (build_tasks (resolve_company_name nm url domain_of) ⟨strip_ws url.toList⟩
        domain_of).map (handle_task exec) := by
  haveI : IsTotal SubReport task_id_le := ⟨fun a b => str_le_b_total _ _⟩
  haveI : IsTrans SubReport task_id_le := ⟨fun a b c => str_le_b_trans _ _ _⟩
  haveI : IsAntisymm (List Char) (fun x y => str_le_b x y = true) := ⟨str_le_b_antisymm⟩
  simp only [run_company_deep_research]
  have hp : (((sched (build_tasks (resolve_company_name nm url domain_of)
        ⟨strip_ws url.toList⟩ domain_of)).map (handle_task exec)).insertionSort
        task_id_le).Perm
      ((build_tasks (resolve_company_name nm url domain_of) ⟨strip_ws url.toList⟩
        domain_of).map (handle_task exec)) :=
    (List.perm_insertionSort task_id_le _).trans
      ((hperm _).map (handle_task exec))
  have hs₁ : (((sched (build_tasks (resolve_company_name nm url domain_of)
        ⟨strip_ws url.toList⟩ domain_of)).map (handle_task exec)).insertionSort
        task_id_le).Pairwise task_id_le :=
    List.sorted_insertionSort task_id_le _
  have hs₂ := tasks_handled_sorted exec (resolve_company_name nm url domain_of)
    ⟨strip_ws url.toList⟩ domain_of
  have hnd := tasks_handled_keys_nodup exec (resolve_company_name nm url domain_of)
    ⟨strip_ws url.toList⟩ domain_of
  have hm₁ : ((((sched (build_tasks (resolve_company_name nm url domain_of)
        ⟨strip_ws url.toList⟩ domain_of)).map (handle_task exec)).insertionSort
        task_id_le).map (fun r => r.task_id.toList)).Pairwise
      (fun x y : List Char => str_le_b x y = true) :=
    List.pairwise_map.mpr hs₁
  have hm₂ : (((build_tasks (resolve_company_name nm url domain_of)
        ⟨strip_ws url.toList⟩ domain_of).map (handle_task exec)).map
        (fun r => r.task_id.toList)).Pairwise
      (fun x y : List Char => str_le_b x y = true) :=
    List.pairwise_map.mpr hs₂
  have hkeys := List.eq_of_perm_of_sorted
    (hp.map (fun r : SubReport => r.task_id.toList)) hm₁ hm₂
  exact map_key_eq_of_perm (fun r => r.task_id.toList) _ _ hp hkeys hnd

/-- A `ResearchOut` is determined by its two fields. -/
theorem research_out_ext : ∀ (a b : ResearchOut), a.company_name = b.company_name →
    a.sub_reports = b.sub_reports → a = b := by
  intro a b h1 h2
  cases a
  cases b
  simp only [ResearchOut.mk.injEq]
  exact ⟨h1, h2⟩

/-- C6: an exception in one task's sub-agent never aborts
`run_company_deep_research`: the output is invariant under the completion
order, contains exactly one collected result per planned task, a failed
task contributes the placeholder (explanatory gap, evidence count 0)
rather than an error, and the final list carries the five task ids sorted
ascending. -/
theorem C6_subagent_fault_isolation (domain_of : String → String)
    (exec : TaskSpec → Except String SubBody)
    (sched sched' : List TaskSpec → List TaskSpec)
    (hperm : ∀ l, (sched l).Perm l) (hperm' : ∀ l, (sched' l).Perm l)
    (nm url : String) :
    run_company_deep_research domain_of exec sched nm url =
      run_company_deep_research domain_of exec sched' nm url ∧
    (run_company_deep_research domain_of exec sched nm url).sub_reports =
      (build_tasks (resolve_company_name nm url domain_of) ⟨strip_ws url.toList⟩
        domain_of).map (handle_task exec) ∧
    (∀ t ∈ build_tasks (resolve_company_name nm url domain_of) ⟨strip_ws url.toList⟩
        domain_of,
      ∀ e, exec t = .error e →
        failed_task_placeholder t e ∈
          (run_company_deep_research domain_of exec sched nm url).sub_reports ∧
        (failed_task_placeholder t e).evidence_count = 0 ∧
        (failed_task_placeholder t e).gaps =
          ["子代理失敗，請稍後重試或改用更明確的公司名稱 / URL。"]) ∧
    ((run_company_deep_research domain_of exec sched nm url).sub_reports.map
        (fun r => r.task_id)) =
      ["business", "financial", "legal", "team", "technology"] ∧
    (run_company_deep_research domain_of exec sched nm url).sub_reports.Pairwise
      task_id_le := by
  have h1 := research_sub_reports domain_of exec sched hperm nm url
  have h2 := research_sub_reports domain_of exec sched' hperm' nm url
  refine ⟨research_out_ext _ _ rfl (h1.trans h2.symm), h1, ?_, ?_, ?_⟩
  · intro t ht e he
    refine ⟨?_, rfl, rfl⟩
    rw [h1]
    have hht : handle_task exec t = failed_task_placeholder t e := by
      unfold handle_task
      rw [he]
    exact List.mem_map.mpr ⟨t, ht, hht⟩
  · rw [h1, List.map_map]
    have hc : ((fun r : SubReport => r.task_id) ∘ handle_task exec) =
        fun t : TaskSpec => t.task_id := funext fun t => handle_task_id exec t
    rw [hc]
    exact build_tasks_ids _ _ _
  · rw [h1]
    exact tasks_handled_sorted exec _ _ _

/-- Witness for `C6_subagent_fault_isolation`: with the `legal` sub-agent
raising and results arriving in reverse order, the run still yields the
five planned reports in task-id order. -/
theorem C6_subagent_fault_isolation_witness :
    ((run_company_deep_research dr_domain0 dr_exec_one_fail (fun l => l.reverse)
        "Acme" "https://acme.com").sub_reports.map (fun r => r.task_id)) =
      ["business", "financial", "legal", "team", "technology"] :=
  (C6_subagent_fault_isolation dr_domain0 dr_exec_one_fail (fun l => l.reverse)
    (fun l => l) (fun l => l.reverse_perm) (fun l => List.Perm.refl l)
    "Acme" "https://acme.com").2.2.2.1

/-- C9 counterexample: with an empty subject name AND an empty URL (whose
domain resolves to nothing), `run_company_deep_research` does NOT surface a
caller-visible error: line 653's fallback
`_domain(company_url).split(".")[0]` silently produces the empty subject
`""` and the run returns a normal five-report result. -/
theorem C9_counterexample :
    (run_company_deep_research dr_domain0 dr_exec_ok (fun l => l) "" "").company_name
      = "" ∧
    ((run_company_deep_research dr_domain0 dr_exec_ok (fun l => l) "" "").sub_reports.map
        (fun r => r.task_id)) =
      ["business", "financial", "legal", "team", "technology"] := by
  with_unfolding_all decide

/-- C9 (amended): a research call with a blank subject name never raises —
it falls back to the first dot-component of the URL's domain as the subject
name (possibly empty) and returns a normal five-report result. -/
theorem C9_no_identity_normal_return (domain_of : String → String)
    (exec : TaskSpec → Except String SubBody)
    (sched : List TaskSpec → List TaskSpec) (hperm : ∀ l, (sched l).Perm l)
    (nm url : String) (hblank : (⟨strip_ws nm.toList⟩ : String) = "") :
    (run_company_deep_research domain_of exec sched nm url).company_name =
      first_dot_component (domain_of url) ∧
    (run_company_deep_research domain_of exec sched nm url).sub_reports.length = 5 := by
  constructor
  · show resolve_company_name nm url domain_of = _
    simp only [resolve_company_name]
    rw [hblank]
    simp
  · rw [research_sub_reports domain_of exec sched hperm nm url, List.length_map]
    rfl

/-- Witness for `C9_no_identity_normal_return`: the empty name and an
unresolvable URL produce a normal run. -/
theorem C9_no_identity_normal_return_witness :
    (run_company_deep_research dr_domain0 dr_exec_ok (fun l => l) "" "u").company_name =
      first_dot_component (dr_domain0 "u") ∧
    (run_company_deep_research dr_domain0 dr_exec_ok (fun l => l) "" "u").sub_reports.length
      = 5 :=
  C9_no_identity_normal_return dr_domain0 dr_exec_ok (fun l => l)
    (fun l => List.Perm.refl l) "" "u" rfl

/-! ### C1, C2, C3: claims about the frontier crawler -/

/-- Enqueueing touches only the frontier bookkeeping, never the core
state. -/
theorem enqueue_core (c : CrawlIn) (st : CrawlState) (url : String) (depth : Nat)
    (source : String) : crawl_core (enqueue c st url depth source) = crawl_core st := by
  simp only [enqueue]
  split
  · rfl
  split
  · rfl
  split
  · rfl
  rfl

/-- A fold of core-preserving updates preserves the core state. -/
theorem foldl_core_preserve (f : CrawlState → String → CrawlState)
    (hf : ∀ s u, crawl_core (f s u) = crawl_core s) :
    ∀ (l : List String) (st : CrawlState), crawl_core (l.foldl f st) = crawl_core st := by
  intro l
  induction l with
  | nil => intro st; rfl
  | cons u rest ih =>
    intro st
    rw [List.foldl_cons]
    exact (ih (f st u)).trans (hf st u)

/-- The one-shot public search only enqueues; the core state is unchanged. -/
theorem enqueue_public_search_core (c : CrawlIn) (st : CrawlState) :
    crawl_core (enqueue_public_search c st) = crawl_core st := by
  simp only [enqueue_public_search]
  split
  · rfl
  · exact foldl_core_preserve _ (fun s u => enqueue_core c s u 0 "public_search")
      c.search_urls { st with did_search := true }

/-- The frontier refill preserves the core state. -/
theorem refill_core (c : CrawlIn) (st : CrawlState) :
    crawl_core (refill c st) = crawl_core st := by
  unfold refill
  split
  · split
    · exact enqueue_public_search_core c st
    · rfl
  · rfl

/-- Advancing the read index preserves the core state. -/
theorem advance_core (st : CrawlState) : crawl_core (advance st) = crawl_core st := rfl

/-- Registry link expansion preserves the core state. -/
theorem expand_links_d_core (c : CrawlIn) (st : CrawlState) (url html : String)
    (depth : Nat) : crawl_core (expand_links_d c st url html depth) = crawl_core st := by
  unfold expand_links_d
  split
  · rw [foldl_core_preserve _ (fun s u => enqueue_core c s u (depth + 1) "registry_related"),
      foldl_core_preserve _ (fun s o => foldl_core_preserve _
        (fun s2 u => enqueue_core c s2 u 0 "registry_official") (c.parent_urls o) s)]
  · rfl

/-- Link expansion preserves the core state. -/
theorem expand_links_core (c : CrawlIn) (st : CrawlState) (url html : String)
    (depth : Nat) : crawl_core (expand_links c st url html depth) = crawl_core st := by
  unfold expand_links
  split
  · rw [foldl_core_preserve _ (fun s u => enqueue_core c s u (depth + 1) "external_signal"),
      expand_links_d_core,
      foldl_core_preserve _ (fun s u => enqueue_core c s u (depth - 1) "parent_route"),
      foldl_core_preserve _ (fun s u => enqueue_core c s u (depth + 1) "hint_link")]
    split
    · exact foldl_core_preserve _
        (fun s u => enqueue_core c s u (depth + 1) "official_internal") _ _
    · rfl
  · rfl

/-- The mid-loop search triggers preserve the core state. -/
theorem maybe_search_core (c : CrawlIn) (st : CrawlState) :
    crawl_core (maybe_search c st) = crawl_core st := by
  unfold maybe_search
  split
  · split
    · exact enqueue_public_search_core c st
    · rfl
  split
  · split
    · exact enqueue_public_search_core c st
    · rfl
  · rfl

/-- The early-stop check returns its input state either way. -/
theorem step_state_finish (c : CrawlIn) (st : CrawlState) :
    step_state (finish_step c st) = st := by
  unfold finish_step
  split <;> rfl

/-- The crawl invariants only mention the core state, so they transfer
across core-equal states. -/
theorem crawl_inv_of_core_eq (c : CrawlIn) (a b : CrawlState)
    (h : crawl_core a = crawl_core b) (hb : CrawlInv c b) : CrawlInv c a := by
  have h1 : a.rows = b.rows := congrArg (fun t => t.1) h
  have h2 : a.visited = b.visited := congrArg (fun t => t.2.1) h
  have h3 : a.seen_signatures = b.seen_signatures := congrArg (fun t => t.2.2.1) h
  have h4 : a.internal_pages = b.internal_pages := congrArg (fun t => t.2.2.2.1) h
  have h5 : a.external_pages = b.external_pages := congrArg (fun t => t.2.2.2.2.1) h
  have h6 : a.registry_pages = b.registry_pages := congrArg (fun t => t.2.2.2.2.2) h
  refine ⟨?_, ?_, ?_, ?_, ?_, ?_, ?_, ?_, ?_⟩
  · rw [h1]; exact hb.rows_le
  · rw [h6]; exact hb.reg_le
  · rw [h5]; exact hb.ext_le
  · rw [h4, h5, h1]; exact hb.int_ext
  · rw [h2]; exact hb.visited_nd
  · rw [h1]; exact hb.urls_nd
  · rw [h1]; exact hb.sigs_nd
  · intro r hr
    rw [h1] at hr
    rw [h2]
    exact hb.urls_vis r hr
  · intro r hr
    rw [h1] at hr
    rw [h3]
    exact hb.sigs_seen r hr

/-- The trace does not enter the invariants. -/
theorem crawl_inv_steps (c : CrawlIn) (st : CrawlState) (v : List (String × String))
    (h : CrawlInv c st) : CrawlInv c { st with steps := v } :=
  ⟨h.rows_le, h.reg_le, h.ext_le, h.int_ext, h.visited_nd, h.urls_nd, h.sigs_nd,
   h.urls_vis, h.sigs_seen⟩

/-- Marking a fresh URL as visited keeps the invariants. -/
theorem mark_visited_inv (c : CrawlIn) (st : CrawlState) (url : String)
    (h : CrawlInv c st) (hnv : url ∉ st.visited) : CrawlInv c (mark_visited st url) :=
  ⟨h.rows_le, h.reg_le, h.ext_le, h.int_ext, List.nodup_cons.mpr ⟨hnv, h.visited_nd⟩,
   h.urls_nd, h.sigs_nd, fun r hr => List.mem_cons_of_mem _ (h.urls_vis r hr), h.sigs_seen⟩

/-- Recording seen keys keeps the invariants. -/
theorem mark_seen_inv (c : CrawlIn) (st : CrawlState) (tk sig : String)
    (h : CrawlInv c st) : CrawlInv c (mark_seen st tk sig) :=
  ⟨h.rows_le, h.reg_le, h.ext_le, h.int_ext, h.visited_nd, h.urls_nd, h.sigs_nd,
   h.urls_vis, fun r hr => List.mem_cons_of_mem _ (h.sigs_seen r hr)⟩


/-- Accepting a page keeps the invariants, given the guards the loop has
established: an open budget, a visited fresh URL, an unseen signature, and
the classification caps not yet reached for the incremented class. -/
theorem accept_row_inv (c : CrawlIn) (st4 : CrawlState) (url : String) (depth : Nat)
    (source : String) (is_int is_reg : Bool) (hinv : CrawlInv c st4)
    (hbud : st4.rows.length < c.max_pages) (hu_mem : url ∈ st4.visited)
    (hu_new : url ∉ st4.rows.map Row.url)
    (hsig_mem : dedupe_signature (visit_title c url) (visit_excerpt c url) ∈
      st4.seen_signatures)
    (hsig_new : dedupe_signature (visit_title c url) (visit_excerpt c url) ∉
      st4.rows.map signature_of)
    (hreg : is_reg = true → st4.registry_pages < c.max_registry_pages)
    (hext : is_int = false → st4.external_pages < c.max_external_pages) :
    CrawlInv c (accept_row c st4 url depth source is_int is_reg) := by
  refine ⟨?_, ?_, ?_, ?_, ?_, ?_, ?_, ?_, ?_⟩
  · show (st4.rows ++ [accepted_row c url depth source is_int is_reg]).length ≤ c.max_pages
    rw [List.length_append]
    exact hbud
  · show (if is_reg then st4.registry_pages + 1 else st4.registry_pages) ≤
      c.max_registry_pages
    cases is_reg
    · simpa using hinv.reg_le
    · simpa using hreg rfl
  · show (if is_int then st4.external_pages else st4.external_pages + 1) ≤
      c.max_external_pages
    cases is_int
    · simpa using hext rfl
    · simpa using hinv.ext_le
  · show (if is_int then st4.internal_pages + 1 else st4.internal_pages) +
        (if is_int then st4.external_pages else st4.external_pages + 1) =
      (st4.rows ++ [accepted_row c url depth source is_int is_reg]).length
    rw [List.length_append]
    have hie := hinv.int_ext
    cases is_int <;> simp <;> omega
  · exact hinv.visited_nd
  · show ((st4.rows ++ [accepted_row c url depth source is_int is_reg]).map Row.url).Nodup
    rw [List.map_append]
    refine List.Nodup.append hinv.urls_nd (List.nodup_singleton _) ?_
    intro a ha hb
    rw [List.map_singleton, List.mem_singleton] at hb
    subst hb
    exact hu_new ha
  · show ((st4.rows ++ [accepted_row c url depth source is_int is_reg]).map
      signature_of).Nodup
    rw [List.map_append]
    refine List.Nodup.append hinv.sigs_nd (List.nodup_singleton _) ?_
    intro a ha hb
    rw [List.map_singleton, List.mem_singleton] at hb
    subst hb
    exact hsig_new ha
  · show ∀ r ∈ st4.rows ++ [accepted_row c url depth source is_int is_reg],
      r.url ∈ st4.visited
    intro r hr
    rcases List.mem_append.mp hr with h | h
    · exact hinv.urls_vis r h
    · rw [List.mem_singleton] at h
      subst h
      exact hu_mem
  · show ∀ r ∈ st4.rows ++ [accepted_row c url depth source is_int is_reg],
      signature_of r ∈ st4.seen_signatures
    intro r hr
    rcases List.mem_append.mp hr with h | h
    · exact hinv.sigs_seen r h
    · rw [List.mem_singleton] at h
      subst h
      exact hsig_mem

/-- The acceptance tail of an iteration keeps the invariants. -/
theorem crawl_accept_inv (c : CrawlIn) (st4 : CrawlState) (url : String) (depth : Nat)
    (source : String) (hinv : CrawlInv c st4) (hbud : st4.rows.length < c.max_pages)
    (hu_mem : url ∈ st4.visited) (hu_new : url ∉ st4.rows.map Row.url)
    (hsig_mem : dedupe_signature (visit_title c url) (visit_excerpt c url) ∈
      st4.seen_signatures)
    (hsig_new : dedupe_signature (visit_title c url) (visit_excerpt c url) ∉
      st4.rows.map signature_of) :
    CrawlInv c (step_state (crawl_accept c st4 url depth source)) := by
  unfold crawl_accept
  split
  · exact crawl_inv_steps c _ _ hinv
  split
  · exact crawl_inv_steps c _ _ hinv
  · rename_i hc1 hc2
    have hreg : c.is_registry_domain (c.domain_of url) = true →
        st4.registry_pages < c.max_registry_pages := by
      intro hr
      rcases Nat.lt_or_ge st4.registry_pages c.max_registry_pages with h | h
      · exact h
      · exact absurd (by rw [hr]; simpa using h) hc1
    have hext : c.is_internal url = false → st4.external_pages < c.max_external_pages := by
      intro hi
      rcases Nat.lt_or_ge st4.external_pages c.max_external_pages with h | h
      · exact h
      · exact absurd (by rw [hi]; simpa using h) hc2
    rw [step_state_finish]
    exact crawl_inv_of_core_eq c _ _
      (by rw [maybe_search_core, expand_links_core])
      (accept_row_inv c st4 url depth source (c.is_internal url)
        (c.is_registry_domain (c.domain_of url)) hinv hbud hu_mem hu_new hsig_mem
        hsig_new hreg hext)

/-- Processing a fresh URL keeps the invariants. -/
theorem crawl_visit_inv (c : CrawlIn) (st2 : CrawlState) (url : String) (depth : Nat)
    (source : String) (hinv : CrawlInv c st2) (hnv : url ∉ st2.visited)
    (hbud : st2.rows.length < c.max_pages) :
    CrawlInv c (step_state (crawl_visit c st2 url depth source)) := by
  have hmv : CrawlInv c (mark_visited st2 url) := mark_visited_inv c st2 url hinv hnv
  have hu_new : url ∉ st2.rows.map Row.url := by
    intro hmem
    obtain ⟨r, hr, hru⟩ := List.mem_map.mp hmem
    exact hnv (hru ▸ hinv.urls_vis r hr)
  unfold crawl_visit
  split
  · exact crawl_inv_steps c _ _ hmv
  split
  · exact crawl_inv_steps c _ _ hmv
  split
  · exact crawl_inv_steps c _ _ hmv
  split
  · exact crawl_inv_steps c _ _ hmv
  split
  · exact crawl_inv_steps c _ _ hmv
  · rename_i h80 h404 hregirr hs1 hs2
    have hsig_new : dedupe_signature (visit_title c url) (visit_excerpt c url) ∉
        st2.rows.map signature_of := by
      intro hmem
      obtain ⟨r, hr, hrs⟩ := List.mem_map.mp hmem
      exact hs1 (hrs ▸ hinv.sigs_seen r hr)
    exact crawl_accept_inv c _ url depth source
      (mark_seen_inv c _ _ _ hmv) hbud (List.mem_cons_self url st2.visited) hu_new
      (List.mem_cons_self _ _) hsig_new

/-- One loop iteration keeps the invariants. -/
theorem crawl_step_inv (c : CrawlIn) (st : CrawlState) (hinv : CrawlInv c st) :
    CrawlInv c (step_state (crawl_step c st)) := by
  have hrc := refill_core c st
  have hr : CrawlInv c (refill c st) := crawl_inv_of_core_eq c _ st hrc hinv
  have hac : crawl_core (advance (refill c st)) = crawl_core st :=
    (advance_core _).trans hrc
  have ha : CrawlInv c (advance (refill c st)) := crawl_inv_of_core_eq c _ st hac hinv
  unfold crawl_step
  split
  · exact hinv
  split
  · exact crawl_inv_steps c st _ hinv
  split
  · exact hr
  split
  · exact hr
  · rename_i hbudget htime hq item heq
    split
    · exact ha
    · rename_i hnv
      have hbud : (advance (refill c st)).rows.length < c.max_pages := by
        have hrr : (advance (refill c st)).rows = st.rows := congrArg (fun t => t.1) hac
        rw [hrr]
        omega
      exact crawl_visit_inv c (advance (refill c st)) item.url item.depth item.source
        ha hnv hbud

/-- The fuelled crawl loop keeps the invariants. -/
theorem crawl_loop_inv (c : CrawlIn) :
    ∀ (fuel : Nat) (st : CrawlState), CrawlInv c st → CrawlInv c (crawl_loop c fuel st) := by
  intro fuel
  induction fuel with
  | zero => intro st h; exact h
  | succ n ih =>
    intro st h
    rw [crawl_loop]
    have hstep := crawl_step_inv c st h
    cases hE : crawl_step c st with
    | stop s =>
      rw [hE] at hstep
      exact hstep
    | next s =>
      rw [hE] at hstep
      exact ih _ (crawl_inv_of_core_eq c _ s rfl hstep)

/-- The empty initial state satisfies the invariants. -/
theorem init_inv (c : CrawlIn) : CrawlInv c init_crawl_state :=
  ⟨Nat.zero_le _, Nat.zero_le _, Nat.zero_le _, rfl, List.nodup_nil, List.nodup_nil,
   List.nodup_nil, fun r hr => absurd hr (List.not_mem_nil r),
   fun r hr => absurd hr (List.not_mem_nil r)⟩

/-- Frontier seeding only enqueues; the core state stays empty. -/
theorem seed_core (c : CrawlIn) :
    crawl_core (seed_crawl c) = crawl_core init_crawl_state := by
  have hextra : ∀ (s : CrawlState) (u : String),
      crawl_core (seed_extra c s u) = crawl_core s := by
    intro s u
    unfold seed_extra
    split
    · rfl
    · rw [foldl_core_preserve _ (fun s2 p => enqueue_core c s2 p 0 "extra_parent"),
        enqueue_core]
  unfold seed_crawl
  rw [foldl_core_preserve _ hextra,
    foldl_core_preserve _ (fun s u => enqueue_core c s u 1 "official_sitemap"),
    foldl_core_preserve _ (fun s u => enqueue_core c s u 0 "official_parent"),
    foldl_core_preserve _ (fun s u => enqueue_core c s u 0 "official_seed")]

/-- The seeded state satisfies the invariants. -/
theorem seed_inv (c : CrawlIn) : CrawlInv c (seed_crawl c) :=
  crawl_inv_of_core_eq c _ _ (seed_core c) (init_inv c)

/-- The output of the domain re-cap walk is a sublist of the already-kept
prefix followed by the remaining input. -/
theorem domain_cap_walk_sublist (mp : Nat) :
    ∀ (l : List (Row × ℚ)) (counts : List (String × Nat)) (acc : List (Row × ℚ)),
      (domain_cap_walk mp l counts acc).Sublist (acc.reverse ++ l) := by
  intro l
  induction l with
  | nil =>
    intro counts acc
    rw [domain_cap_walk, List.append_nil]
  | cons e rest ih =>
    intro counts acc
    rw [domain_cap_walk]
    split
    · exact (ih counts acc).trans (((List.Sublist.refl rest).cons e).append_left acc.reverse)
    split
    · rw [List.reverse_cons]
      exact (List.singleton_sublist.mpr (List.mem_cons_self e rest)).append_left acc.reverse
    · have h := ih ((row_domain e.1, lookup_cnt counts (row_domain e.1) + 1) :: counts)
        (e :: acc)
      rw [List.reverse_cons, List.append_assoc] at h
      exact h

/-- The domain re-cap walk keeps at most 4 pages per domain, whenever the
counts table matches the kept prefix and is itself within the cap. -/
theorem domain_cap_walk_countP (mp : Nat) (d : String) :
    ∀ (l : List (Row × ℚ)) (counts : List (String × Nat)) (acc : List (Row × ℚ)),
      (∀ d', acc.countP (fun e => row_domain e.1 == d') = lookup_cnt counts d') →
      (∀ d', lookup_cnt counts d' ≤ 4) →
      (domain_cap_walk mp l counts acc).countP (fun e => row_domain e.1 == d) ≤ 4 := by
  intro l
  induction l with
  | nil =>
    intro counts acc hrel hb
    rw [domain_cap_walk, (List.reverse_perm acc).countP_eq, hrel d]
    exact hb d
  | cons e rest ih =>
    intro counts acc hrel hb
    rw [domain_cap_walk]
    split
    · exact ih counts acc hrel hb
    · rename_i hskip
      have hlt : lookup_cnt counts (row_domain e.1) < 4 := Nat.lt_of_not_le hskip
      split
      · rw [(List.reverse_perm _).countP_eq]
        simp only [List.countP_cons]
        rw [hrel d]
        by_cases hd : row_domain e.1 = d
        · rw [if_pos (by simpa using hd)]
          rw [hd] at hlt
          omega
        · rw [if_neg (by simpa using hd)]
          have := hb d
          omega
      · refine ih _ (e :: acc) ?_ ?_
        · intro d'
          simp only [List.countP_cons]
          rw [hrel d']
          by_cases hd : row_domain e.1 = d'
          · rw [if_pos (by simpa using hd), ← hd, lookup_cnt_cons_self]
          · rw [if_neg (by simpa using hd), lookup_cnt_cons_ne counts _ hd]
            omega
        · intro d'
          by_cases hd : row_domain e.1 = d'
          · rw [← hd, lookup_cnt_cons_self]
            exact Nat.lt_of_not_le hskip
          · rw [lookup_cnt_cons_ne counts _ hd]
            exact hb d'

/-- The evidence ordering is total. -/
theorem ev_key_le_total : ∀ a b : Row × ℚ, ev_key_le a b ∨ ev_key_le b a := by
  intro a b
  unfold ev_key_le
  rcases lt_trichotomy a.2 b.2 with h | h | h
  · exact .inr (.inl h)
  · rcases Nat.le_total b.1.content_chars a.1.content_chars with hc | hc
    · exact .inl (.inr ⟨h.symm, hc⟩)
    · exact .inr (.inr ⟨h, hc⟩)
  · exact .inl (.inl h)

/-- The evidence ordering is transitive. -/
theorem ev_key_le_trans : ∀ a b c : Row × ℚ, ev_key_le a b → ev_key_le b c →
    ev_key_le a c := by
  intro a b c h1 h2
  unfold ev_key_le at h1 h2 ⊢
  rcases h1 with h1 | ⟨he1, hc1⟩
  · rcases h2 with h2 | ⟨he2, hc2⟩
    · exact .inl (lt_trans h2 h1)
    · exact .inl (by rw [he2]; exact h1)
  · rcases h2 with h2 | ⟨he2, hc2⟩
    · exact .inl (by rw [← he1]; exact h2)
    · exact .inr ⟨he2.trans he1, le_trans hc2 hc1⟩

/-- The prioritized evidence is a sublist of the scored rows sorted by the
evidence ordering. -/
theorem prioritize_sublist (rows : List Row) (nm : String) (mp : Nat) :
    (prioritize_company_evidence rows nm mp).Sublist
      ((rows.map (fun r =>
        (r, company_relevance_score r.title r.excerpt nm
          (r.source_type = "registry") r.is_official_site r.crawl_source))).insertionSort
        ev_key_le) := by
  unfold prioritize_company_evidence
  split
  · exact List.nil_sublist _
  · simpa using domain_cap_walk_sublist mp _ [] []

set_option maxRecDepth 40000 in
/-- C1 counterexample: the crawler caps registry and external pages, but
internal pages have NO classification ceiling of their own — in a run with
`max_registry_pages = 4` and `max_external_pages = 6`, seven internal pages
are accepted (only the overall budget of 16 restrains them). -/
theorem C1_counterexample :
    (collect_company_evidence c1_cx 8).2.internal_pages = 7 ∧
    c1_cx.max_registry_pages = 4 ∧
    c1_cx.max_external_pages = 6 ∧
    c1_cx.max_pages = 16 ∧
    (collect_company_evidence c1_cx 8).2.registry_pages = 0 ∧
    (collect_company_evidence c1_cx 8).2.external_pages = 0 := by
  with_unfolding_all decide

/-- C1 (amended): in every crawl run the accepted evidence pages never
exceed the configured `max_pages` budget, the registry-classified pages
never exceed `max_registry_pages`, and the external pages never exceed
`max_external_pages`; internal pages are bounded only by the overall
budget (the code has no internal-specific cap).  The prioritized output is
never longer than the accepted row set. -/
theorem C1_budget_and_class_caps (c : CrawlIn) (fuel : Nat) :
    (collect_company_evidence c fuel).2.rows.length ≤ c.max_pages ∧
    (collect_company_evidence c fuel).2.registry_pages ≤ c.max_registry_pages ∧
    (collect_company_evidence c fuel).2.external_pages ≤ c.max_external_pages ∧
    (collect_company_evidence c fuel).2.internal_pages +
      (collect_company_evidence c fuel).2.external_pages =
      (collect_company_evidence c fuel).2.rows.length ∧
    (collect_company_evidence c fuel).1.length ≤
      (collect_company_evidence c fuel).2.rows.length := by
  have hinv := crawl_loop_inv c fuel (seed_crawl c) (seed_inv c)
  refine ⟨hinv.rows_le, hinv.reg_le, hinv.ext_le, hinv.int_ext, ?_⟩
  have hlen := (prioritize_sublist (crawl_loop c fuel (seed_crawl c)).rows
    c.company_name c.max_pages).length_le
  rw [(List.perm_insertionSort ev_key_le _).length_eq, List.length_map] at hlen
  exact hlen

/-- C2: in every crawl run, no URL is visited twice, no URL appears twice
among the accepted evidence rows, and no two accepted rows share the same
title+excerpt de-duplication signature. -/
theorem C2_no_revisit_no_duplicates (c : CrawlIn) (fuel : Nat) :
    (collect_company_evidence c fuel).2.visited.Nodup ∧
    ((collect_company_evidence c fuel).2.rows.map Row.url).Nodup ∧
    ((collect_company_evidence c fuel).2.rows.map signature_of).Nodup :=
  have hinv := crawl_loop_inv c fuel (seed_crawl c) (seed_inv c)
  ⟨hinv.visited_nd, hinv.urls_nd, hinv.sigs_nd⟩

/-- C3: the prioritized evidence list of every crawl run is sorted
descending by (relevance score, content length) — ties prefer the longer
extracted text — carries at most 4 pages per source domain, and pairs every
row with exactly its `_company_relevance_score`. -/
theorem C3_sorted_domain_capped_scored (c : CrawlIn) (fuel : Nat) :
    ((collect_company_evidence c fuel).1).Pairwise ev_key_le ∧
    (∀ d, ((collect_company_evidence c fuel).1).countP
      (fun e => row_domain e.1 == d) ≤ 4) ∧
    ((collect_company_evidence c fuel).1).map Prod.snd =
      ((collect_company_evidence c fuel).1).map (fun p =>
        company_relevance_score p.1.title p.1.excerpt c.company_name
          (p.1.source_type = "registry") p.1.is_official_site p.1.crawl_source) := by
  haveI : IsTotal (Row × ℚ) ev_key_le := ⟨ev_key_le_total⟩
  haveI : IsTrans (Row × ℚ) ev_key_le := ⟨ev_key_le_trans⟩
  have hsub := prioritize_sublist (crawl_loop c fuel (seed_crawl c)).rows
    c.company_name c.max_pages
  refine ⟨?_, ?_, ?_⟩
  · exact (List.sorted_insertionSort ev_key_le _).sublist hsub
  · intro d
    show (prioritize_company_evidence (crawl_loop c fuel (seed_crawl c)).rows
      c.company_name c.max_pages).countP (fun e => row_domain e.1 == d) ≤ 4
    unfold prioritize_company_evidence
    split
    · simp
    · exact domain_cap_walk_countP c.max_pages d _ [] [] (fun d' => rfl)
        (fun d' => Nat.zero_le 4)
  · refine List.map_eq_map_iff.mpr ?_
    intro p hp
    have hp3 : p ∈ (crawl_loop c fuel (seed_crawl c)).rows.map (fun r =>
        (r, company_relevance_score r.title r.excerpt c.company_name
          (r.source_type = "registry") r.is_official_site r.crawl_source)) :=
      (List.perm_insertionSort ev_key_le _).subset (hsub.subset hp)
    obtain ⟨r, hr, hpe⟩ := List.mem_map.mp hp3
    rw [← hpe]
